import Mathlib

/-!
# EKS add-on table: list / get hydration

A shallow embedding of `aws/table_aws_eks_addon.go` (`tableAwsEksAddon`,
`listEksAddons`, `getEksAddon`).  Go pointers are `Option`s, `interface{}` values are
a sum of the dynamic types that occur, a run-time panic is an explicit outcome, and the
effects of a hydrate function (client requests, remote calls, streamed items, log lines)
are recorded in a `World` that is passed through the code.
-/

namespace EksAddon

/-! ## Data model -/

/-- Go `error` values: an AWS SDK error carrying a provider error code
(`awserr.Error`), or any other error. -/
inductive GoError where
  | aws (code : String) (message : String)
  | other (message : String)
  deriving DecidableEq, Repr

/-- The type `eks.AddonIssue` of the AWS SDK. -/
structure AddonIssue where
  Code : Option String := none
  Message : Option String := none
  ResourceIds : List (Option String) := []
  deriving DecidableEq, Repr

/-- The type `eks.AddonHealth` of the AWS SDK. -/
structure AddonHealth where
  Issues : List (Option AddonIssue) := []
  deriving DecidableEq, Repr

/-- The type `eks.Addon` of the AWS SDK; every field is a pointer (or a map) and has the
Go zero value unless it is set. Timestamps are seconds since the epoch. -/
structure Addon where
  AddonArn : Option String := none
  AddonName : Option String := none
  AddonVersion : Option String := none
  ClusterName : Option String := none
  CreatedAt : Option Int := none
  Health : Option AddonHealth := none
  ModifiedAt : Option Int := none
  ServiceAccountRoleArn : Option String := none
  Status : Option String := none
  Tags : List (String × Option String) := []
  deriving DecidableEq, Repr

/-- The type `eks.Cluster` of the AWS SDK, restricted to the one field the table reads. -/
structure Cluster where
  Name : Option String := none
  deriving DecidableEq, Repr

/-- The type `eks.ListAddonsInput` of the AWS SDK. -/
structure ListAddonsInput where
  ClusterName : Option String := none
  MaxResults : Option Int := none
  NextToken : Option String := none
  deriving DecidableEq, Repr

/-- The type `eks.ListAddonsOutput` of the AWS SDK; `Addons` is a `[]*string`. -/
structure ListAddonsOutput where
  Addons : List (Option String) := []
  NextToken : Option String := none
  deriving DecidableEq, Repr

/-- The type `eks.DescribeAddonInput` of the AWS SDK. -/
structure DescribeAddonInput where
  AddonName : Option String := none
  ClusterName : Option String := none
  deriving DecidableEq, Repr

/-- The type `eks.DescribeAddonOutput` of the AWS SDK. -/
structure DescribeAddonOutput where
  Addon : Option Addon := none
  deriving DecidableEq, Repr

/-- A Go `interface{}` holding a hydrate item: the nil interface, a `*eks.Cluster`,
a `*eks.Addon` (either pointer may itself be nil), or a value of some other type. -/
inductive Item where
  | nil
  | cluster (c : Option Cluster)
  | addon (a : Option Addon)
  | other (typeName : String)
  deriving DecidableEq, Repr

/-- A value stored in the matrix item (`map[string]interface{}`): a string or a value of
some other dynamic type. -/
inductive MatrixValue where
  | str (s : String)
  | other (typeName : String)
  deriving DecidableEq, Repr

/-- The part of `context.Context` the table reads: the matrix item of the invocation. -/
structure Context where
  matrixItem : List (String × MatrixValue) := []
  deriving DecidableEq, Repr

/-- The type `proto.QualValue`: a one-of, of which the string case matters here. -/
inductive QualValue where
  | stringValue (s : String)
  | int64Value (n : Int)
  | boolValue (b : Bool)
  | otherValue (kind : String)
  deriving DecidableEq, Repr

/-- The part of `plugin.QueryData` the table uses: the key-column predicates, and the
row limit of the caller (the cancellation signal of the caller query interface). -/
structure QueryData where
  KeyColumnQuals : List (String × QualValue) := []
  rowLimit : Option Nat := none
  deriving DecidableEq, Repr

/-- The type `plugin.HydrateData`. -/
structure HydrateData where
  Item : Item := Item.nil
  deriving DecidableEq, Repr

/-- A service client `*eks.EKS`: the endpoint it is bound to and the two remote
operations, given as mocks that answer each request. -/
structure EKS where
  endpoint : String
  ListAddons : ListAddonsInput → Except GoError ListAddonsOutput
  DescribeAddon : DescribeAddonInput → Except GoError DescribeAddonOutput

/-- Declarations of the package that live outside `table_aws_eks_addon.go` and are taken
as parameters: the constant `matrixKeyRegion` and the client constructor `EksService`. -/
structure Env where
  matrixKeyRegion : String
  EksService : Context → QueryData → String → Except GoError EKS

/-- A request sent to the remote API, tagged with the endpoint of the client used. -/
inductive RemoteCall where
  | listAddons (endpoint : String) (input : ListAddonsInput)
  | describeAddon (endpoint : String) (input : DescribeAddonInput)
  deriving DecidableEq, Repr

/-- The observable effects of the hydrate functions: regions for which a client was
requested, remote calls issued, items handed to the result streamer, the number of
remote calls that had been issued when the evaluation was cancelled (if it was), and the
trace log. -/
structure World where
  clients : List String := []
  calls : List RemoteCall := []
  stream : List Item := []
  cancelledAt : Option Nat := none
  logs : List (String × List String) := []
  deriving DecidableEq, Repr

/-- How a call ends: it returns, it panics, or the model ran out of fuel before it did. -/
inductive Outcome (α : Type) where
  | returned (a : α)
  | panicked (msg : String)
  | outOfFuel
  deriving DecidableEq, Repr

/-! ## Collaborators -/

/-- The call `plugin.GetMatrixItem(ctx)[key]`: the value stored under `key`, or the nil
interface. -/
def GetMatrixItem (ctx : Context) (key : String) : Option MatrixValue :=
  ctx.matrixItem.lookup key

/-- The lines `var region string; if matrixRegion != nil { region = matrixRegion.(string) }`:
the zero value without a matrix region, a panic when the assertion fails. -/
def regionString : Option MatrixValue → Except String String
  | none => .ok ""
  | some (.str s) => .ok s
  | some (.other t) => .error ("interface conversion: interface is " ++ t ++ ", not string")

/-- The call `plugin.Logger(ctx).Trace(msg, args...)`. -/
def Trace (msg : String) (args : List String) (w : World) : World :=
  { w with logs := w.logs ++ [(msg, args)] }

/-- The generated getter `(*proto.QualValue).GetStringValue`, applied to the result of a
map lookup: the string of a string value, the empty string otherwise (also on nil). -/
def GetStringValue : Option QualValue → String
  | some (.stringValue s) => s
  | _ => ""

/-- The call `EksService(ctx, d, region)`, recording the region the client is requested
for. -/
def callEksService (env : Env) (ctx : Context) (d : QueryData) (region : String) (w : World) :
    Except GoError EKS × World :=
  (env.EksService ctx d region, { w with clients := w.clients ++ [region] })

/-- Modelled from the spec: `d.StreamListItem` of the plugin SDK, the Result Streamer of
§4.5, which forwards each item in the order produced, without batching, filtering or
reordering. The evaluation is cancelled when the row limit of the caller is reached
(§5, §6); the model records how many remote calls had been issued at that moment. -/
def StreamListItem (d : QueryData) (item : Item) (w : World) : World :=
  { w with
    stream := w.stream ++ [item]
    cancelledAt :=
      match w.cancelledAt with
      | some n => some n
      | none => if d.rowLimit = some (w.stream.length + 1) then some w.calls.length else none }

/-- The token that addresses the next page: a nil or empty `NextToken` means that there
is no further page. -/
def nextPageToken (out : ListAddonsOutput) : Option String :=
  match out.NextToken with
  | none => none
  | some t => if t = "" then none else some t

/-- Modelled from the spec: the pager behind `svc.ListAddonsPages` (AWS SDK), the
listing operation of §4.3 and §6. It requests a page, hands it to the callback, and goes
on with the token of that page until there is no token, the callback returns false, or a
request fails; the error of the failed request is returned. `started` and `nextToken`
are the state of the pager; each request takes one unit of fuel. -/
def pagesLoop (svc : EKS) (input : ListAddonsInput)
    (fn : ListAddonsOutput → Bool → World → Bool × World) :
    Nat → Bool → Option String → World → Outcome (Option GoError) × World
  | 0, started, nextToken, w =>
    if started && nextToken.isNone then (.returned none, w) else (.outOfFuel, w)
  | fuel + 1, started, nextToken, w =>
    if started && nextToken.isNone then (.returned none, w)
    else
      let req : ListAddonsInput := if started then { input with NextToken := nextToken } else input
      let w1 : World := { w with calls := w.calls ++ [RemoteCall.listAddons svc.endpoint req] }
      match svc.ListAddons req with
      | .error e => (.returned (some e), w1)
      | .ok page =>
        let r := fn page (nextPageToken page).isNone w1
        if r.1 then pagesLoop svc input fn fuel true (nextPageToken page) r.2
        else (.returned none, r.2)

/-- The method `svc.ListAddonsPages(input, fn)`: the pager, not yet started. -/
def ListAddonsPages (svc : EKS) (input : ListAddonsInput)
    (fn : ListAddonsOutput → Bool → World → Bool × World) (fuel : Nat) (w : World) :
    Outcome (Option GoError) × World :=
  pagesLoop svc input fn fuel false none w

/-- The method `svc.DescribeAddon(params)`, recording the request. -/
def callDescribeAddon (svc : EKS) (params : DescribeAddonInput) (w : World) :
    Except GoError DescribeAddonOutput × World :=
  (svc.DescribeAddon params,
    { w with calls := w.calls ++ [RemoteCall.describeAddon svc.endpoint params] })

/-! ## The hydrate functions of `table_aws_eks_addon.go` -/

/-- The page callback of `listEksAddons`: streams one `eks.Addon` per entry of the page,
holding the entry and the cluster name, and returns true. -/
def listEksAddonsPage (d : QueryData) (clusterName : String) (page : ListAddonsOutput)
    (_b : Bool) (w : World) : Bool × World :=
  (true, page.Addons.foldl
    (fun w addon =>
      StreamListItem d (Item.addon (some { AddonName := addon, ClusterName := some clusterName })) w)
    w)

/-- The function `listEksAddons`. -/
def listEksAddons (env : Env) (fuel : Nat) (ctx : Context) (d : QueryData) (h : HydrateData)
    (w : World) : Outcome (Item × Option GoError) × World :=
  match regionString (GetMatrixItem ctx env.matrixKeyRegion) with
  | .error msg => (.panicked msg, w)
  | .ok region =>
    let w1 := Trace "listEksAddons" ["AWS_REGION", region] w
    -- Get cluster details
    match h.Item with
    | .cluster (some c) =>
      match c.Name with
      | none => (.panicked "nil pointer dereference", w1)
      | some clusterName =>
        -- Create service
        match callEksService env ctx d region w1 with
        | (.error err, w2) => (.returned (Item.nil, some err), w2)
        | (.ok svc, w2) =>
          match ListAddonsPages svc { ClusterName := some clusterName }
              (listEksAddonsPage d clusterName) fuel w2 with
          | (.returned err, w3) => (.returned (Item.nil, err), w3)
          | (.panicked msg, w3) => (.panicked msg, w3)
          | (.outOfFuel, w3) => (.outOfFuel, w3)
    | .cluster none => (.panicked "nil pointer dereference", w1)
    | _ => (.panicked "interface conversion: interface is not *eks.Cluster", w1)

/-- The lines of `getEksAddon` that set `clusterName` and `addonName`: taken from the
item when `h.Item != nil`, from the key-column predicates otherwise; a failed type
assertion or the dereference of a nil pointer panics. -/
def lookupKey (d : QueryData) (h : HydrateData) : Except String (String × String) :=
  match h.Item with
  | .nil =>
    .ok (GetStringValue (d.KeyColumnQuals.lookup "cluster_name"),
      GetStringValue (d.KeyColumnQuals.lookup "addon_name"))
  | .addon (some a) =>
    match a.ClusterName with
    | none => .error "nil pointer dereference"
    | some clusterName =>
      match a.AddonName with
      | none => .error "nil pointer dereference"
      | some addonName => .ok (clusterName, addonName)
  | .addon none => .error "nil pointer dereference"
  | _ => .error "interface conversion: interface is not *eks.Addon"

/-- The function `getEksAddon`. -/
def getEksAddon (env : Env) (ctx : Context) (d : QueryData) (h : HydrateData) (w : World) :
    Outcome (Item × Option GoError) × World :=
  let w1 := Trace "getEksAddon" [] w
  match regionString (GetMatrixItem ctx env.matrixKeyRegion) with
  | .error msg => (.panicked msg, w1)
  | .ok region =>
    match lookupKey d h with
    | .error msg => (.panicked msg, w1)
    | .ok (clusterName, addonName) =>
      -- create service
      match callEksService env ctx d region w1 with
      | (.error err, w2) => (.returned (Item.nil, some err), w2)
      | (.ok svc, w2) =>
        match callDescribeAddon svc { AddonName := some addonName, ClusterName := some clusterName } w2 with
        | (.error err, w3) => (.returned (Item.nil, some err), w3)
        | (.ok op, w3) => (.returned (Item.addon op.Addon, none), w3)

/-! ## The table definition and the get path -/

/-- Modelled from the spec: `isNotFoundError`, declared elsewhere in the package. It
classifies an error by matching its provider error code against a set of ignorable
codes (§7, §9); an error without a provider code is never ignorable. -/
def isNotFoundError (notFoundErrors : List String) (err : GoError) : Bool :=
  match err with
  | .aws code _ => notFoundErrors.contains code
  | .other _ => false

/-- The type of a hydrate function, `plugin.HydrateFunc`, in this embedding. -/
abbrev HydrateFunc : Type :=
  Env → Context → QueryData → HydrateData → World → Outcome (Item × Option GoError) × World

/-- The type `plugin.GetConfig`. -/
structure GetConfig where
  KeyColumns : List String
  ShouldIgnoreError : GoError → Bool
  Hydrate : HydrateFunc

/-- The `Get` configuration of `tableAwsEksAddon`. -/
def tableAwsEksAddonGet : GetConfig :=
  { KeyColumns := ["addon_name", "cluster_name"],
    ShouldIgnoreError :=
      isNotFoundError ["ResourceNotFoundException", "InvalidParameterException", "InvalidParameter"],
    Hydrate := getEksAddon }

/-- What the get path delivers for one key: the records, and the fault of the
evaluation if there is one. -/
structure GetResult where
  records : List Item := []
  fault : Option GoError := none
  deriving DecidableEq, Repr

/-- An `interface{}` that holds nothing: the nil interface or a nil pointer. -/
def Item.isNil : Item → Bool
  | .nil => true
  | .cluster none => true
  | .addon none => true
  | _ => false

/-- Modelled from the spec: the Hydrator boundary that the plugin SDK puts around
`Get.Hydrate` (§4.4, §7). A record that was returned is delivered; an error of the
not-found class, as told by `ShouldIgnoreError`, is suppressed and leaves zero records
and no fault; every other error is the fault of the evaluation, unmodified. -/
def getPath (cfg : GetConfig) (env : Env) (ctx : Context) (d : QueryData) (h : HydrateData)
    (w : World) : Outcome GetResult × World :=
  match cfg.Hydrate env ctx d h w with
  | (.returned (item, none), w1) =>
    (.returned { records := if item.isNil then [] else [item], fault := none }, w1)
  | (.returned (_, some err), w1) =>
    if cfg.ShouldIgnoreError err then (.returned { records := [], fault := none }, w1)
    else (.returned { records := [], fault := some err }, w1)
  | (.panicked msg, w1) => (.panicked msg, w1)
  | (.outOfFuel, w1) => (.outOfFuel, w1)

/-- The type `proto.ColumnType`, the cases the table uses. -/
inductive ColumnType where
  | STRING
  | TIMESTAMP
  | JSON
  deriving DecidableEq, Repr

/-- A column transform as the table builds them: `transform.FromField(path)`, optionally
followed by `.Transform(transform.EnsureStringArray)`. -/
structure ColumnTransform where
  field : String
  ensureStringArray : Bool := false
  deriving DecidableEq, Repr

/-- The constructor `transform.FromField(path)`. -/
def FromField (path : String) : ColumnTransform := { field := path }

/-- The type `plugin.Column`; its field `Type` is named `ColType` here. -/
structure Column where
  Name : String
  Description : String
  ColType : ColumnType
  Hydrate : Option HydrateFunc := none
  Transform : Option ColumnTransform := none

/-- The columns that `tableAwsEksAddon` declares, lines 29 to 105. The helper
`resourceInterfaceDescription` is declared elsewhere in the package and is a parameter;
so is `awsRegionalColumns`, which adds the common regional columns to these and is left
out. -/
def eksAddonColumns (resourceInterfaceDescription : String → String) : List Column :=
  [ { Name := "addon_name",
      Description := "The name of the add-on.",
      ColType := .STRING },
    { Name := "arn",
      Description := "The Amazon Resource Name (ARN) of the add-on.",
      ColType := .STRING,
      Hydrate := some getEksAddon,
      Transform := some (FromField "AddonArn") },
    { Name := "cluster_name",
      Description := "The name of the cluster.",
      ColType := .STRING },
    { Name := "addon_version",
      Description := "The version of the add-on.",
      ColType := .STRING,
      Hydrate := some getEksAddon },
    { Name := "status",
      Description := "The status of the add-on.",
      ColType := .STRING,
      Hydrate := some getEksAddon },
    { Name := "created_at",
      Description := "The date and time that the add-on was created.",
      ColType := .TIMESTAMP,
      Hydrate := some getEksAddon },
    { Name := "modified_at",
      Description := "The date and time that the add-on was last modified.",
      ColType := .TIMESTAMP,
      Hydrate := some getEksAddon },
    { Name := "service_account_role_arn",
      Description := "The Amazon Resource Name (ARN) of the IAM role that is bound to the Kubernetes service account used by the add-on.",
      ColType := .STRING,
      Hydrate := some getEksAddon },
    { Name := "health_issues",
      Description := "An object that represents the add-on's health issues.",
      ColType := .JSON,
      Hydrate := some getEksAddon,
      Transform := some (FromField "Health.Issues") },
    -- Steampipe standard columns
    { Name := "title",
      Description := resourceInterfaceDescription "title",
      ColType := .STRING,
      Transform := some (FromField "AddonName") },
    { Name := "tags",
      Description := "The metadata that you apply to the cluster to assist with categorization and organization.",
      ColType := .JSON,
      Hydrate := some getEksAddon },
    { Name := "akas",
      Description := resourceInterfaceDescription "akas",
      ColType := .JSON,
      Hydrate := some getEksAddon,
      Transform := some { FromField "AddonArn" with ensureStringArray := true } } ]

/-- The part of `plugin.Table` that `tableAwsEksAddon` fills in this file. -/
structure Table where
  Name : String
  Description : String
  Get : GetConfig
  Columns : List Column

/-- The function `tableAwsEksAddon`. Its `List` configuration names `listEksClusters` as
parent hydrate and `listEksAddons` as hydrate, and `GetMatrixItem` is `BuildRegionList`;
both are wiring to declarations outside this file. -/
def tableAwsEksAddon (resourceInterfaceDescription : String → String) : Table :=
  { Name := "aws_eks_addon",
    Description := "AWS EKS Addon",
    Get := tableAwsEksAddonGet,
    Columns := eksAddonColumns resourceInterfaceDescription }

/-- A value of a column of the delivered record. -/
inductive Value where
  | null
  | string (s : String)
  | timestamp (t : Int)
  | issues (l : List (Option AddonIssue))
  | tags (m : List (String × Option String))
  | strings (l : List String)
  deriving DecidableEq, Repr

/-- The value of a `*string` field. -/
def Value.ofString : Option String → Value
  | none => .null
  | some s => .string s

/-- The value of a `*time.Time` field. -/
def Value.ofTime : Option Int → Value
  | none => .null
  | some t => .timestamp t

/-- The field of an `eks.Addon` named by a field path. -/
def Addon.fieldValue (a : Addon) (path : String) : Value :=
  if path = "AddonArn" then Value.ofString a.AddonArn
  else if path = "AddonName" then Value.ofString a.AddonName
  else if path = "AddonVersion" then Value.ofString a.AddonVersion
  else if path = "ClusterName" then Value.ofString a.ClusterName
  else if path = "CreatedAt" then Value.ofTime a.CreatedAt
  else if path = "ModifiedAt" then Value.ofTime a.ModifiedAt
  else if path = "ServiceAccountRoleArn" then Value.ofString a.ServiceAccountRoleArn
  else if path = "Status" then Value.ofString a.Status
  else if path = "Tags" then Value.tags a.Tags
  else if path = "Health.Issues" then
    (match a.Health with
     | none => Value.null
     | some health => Value.issues health.Issues)
  else Value.null

/-- The field of a hydrate item named by a field path; an item that is no `eks.Addon`
has none of the fields the columns read. -/
def Item.fieldValue : Item → String → Value
  | .addon (some a), path => a.fieldValue path
  | _, _ => .null

/-- Snake case to camel case on characters: the first letter and every letter after an
underscore are put in upper case, the underscores are dropped. -/
def camelChars : Bool → List Char → List Char
  | _, [] => []
  | upper, c :: cs =>
    if c = '_' then camelChars true cs
    else (if upper then c.toUpper else c) :: camelChars false cs

/-- Modelled from the spec: the default transform of the plugin, `transform.FromCamel`,
set outside this file: a column without a transform reads the field of its source that
is named like the column, in camel case (§6: the identity fields of the record are the
`parent_id` and `child_name` of the identity). -/
def FromCamel (columnName : String) : String :=
  String.mk (camelChars true columnName.data)

/-- The transform `transform.EnsureStringArray`: a string becomes the array holding it. -/
def EnsureStringArray : Value → Value
  | .string s => .strings [s]
  | v => v

/-- The value of a column, read from its source item through its transform. -/
def columnValue (col : Column) (source : Item) : Value :=
  match col.Transform with
  | none => source.fieldValue (FromCamel col.Name)
  | some t =>
    if t.ensureStringArray then EnsureStringArray (source.fieldValue t.field)
    else source.fieldValue t.field

/-- A delivered record: the values of the columns, by column name. -/
abbrev Row : Type := List (String × Value)

/-- Modelled from the spec: the merge of the two calls into the delivered record (§1,
§2, §6). A column without a hydrate function is read from the item of the listing call,
a column with one from the result of the detail call. -/
def assembleRow (columns : List Column) (listed hydrated : Item) : Row :=
  columns.map fun col =>
    (col.Name, columnValue col (if col.Hydrate.isSome then hydrated else listed))

/-- What the list-then-get path delivers for one streamed item: the records, and the
fault of the evaluation if there is one. -/
structure RowResult where
  rows : List Row := []
  fault : Option GoError := none
  deriving DecidableEq, Repr

/-- Modelled from the spec: the list-then-get path for one streamed item (§2, §4.4, §7,
§9). The hydrate function of the columns, the same for all hydrated columns of this
table, is run once with the item; the record it returns is merged with the item into the
delivered record; an error of the not-found class leaves zero records and no fault,
every other error is the fault of the evaluation. -/
def listThenGet (tbl : Table) (env : Env) (ctx : Context) (d : QueryData) (item : Item)
    (w : World) : Outcome RowResult × World :=
  match tbl.Columns.findSome? (fun col => col.Hydrate) with
  | none => (.returned { rows := [assembleRow tbl.Columns item Item.nil] }, w)
  | some hydrate =>
    match hydrate env ctx d { Item := item } w with
    | (.returned (record, none), w1) =>
      (.returned { rows := if record.isNil then [] else [assembleRow tbl.Columns item record] },
        w1)
    | (.returned (_, some err), w1) =>
      if tbl.Get.ShouldIgnoreError err then (.returned { rows := [], fault := none }, w1)
      else (.returned { rows := [], fault := some err }, w1)
    | (.panicked msg, w1) => (.panicked msg, w1)
    | (.outOfFuel, w1) => (.outOfFuel, w1)

/-- The endpoint of the client through which a remote call was issued. -/
def callEndpoint : RemoteCall → String
  | .listAddons endpoint _ => endpoint
  | .describeAddon endpoint _ => endpoint

/-- A remote call was issued after the evaluation had been cancelled. -/
def requestAfterCancel (w : World) : Bool :=
  match w.cancelledAt with
  | some n => decide (n < w.calls.length)
  | none => false

/-- Two worlds agree on everything but the record of the cancellation. -/
def agreeUpToCancel (w w2 : World) : Prop :=
  w.clients = w2.clients ∧ w.calls = w2.calls ∧ w.stream = w2.stream ∧ w.logs = w2.logs

/-! ## Pagination chains -/

/-- The item streamed for one entry of a page of the cluster `clusterName`. -/
def listItem (clusterName : String) (addon : Option String) : Item :=
  Item.addon (some { AddonName := addon, ClusterName := some clusterName })

/-- The items of one page, in the order of its entries. -/
def pageItems (clusterName : String) (page : ListAddonsOutput) : List Item :=
  page.Addons.map (listItem clusterName)

/-- The request for the page of the cluster `clusterName` addressed by `tok`. -/
def pageRequest (clusterName : String) (tok : Option String) : ListAddonsInput :=
  { ClusterName := some clusterName, NextToken := tok }

/-- The requests that fetch `pages` one after the other, the first one with `tok`, each
later one with the token of the page before it. -/
def chainRequests (clusterName : String) : Option String → List ListAddonsOutput → List ListAddonsInput
  | _, [] => []
  | tok, page :: rest => pageRequest clusterName tok :: chainRequests clusterName (nextPageToken page) rest

/-- The token that follows `pages`, fetched from `tok` on. -/
def chainEndToken : Option String → List ListAddonsOutput → Option String
  | tok, [] => tok
  | _, page :: rest => chainEndToken (nextPageToken page) rest

/-- The mocked listing operation of `svc` answers the cluster `clusterName` with exactly
the pages `pages`, from the token `tok` on: every page but the last names a next page,
the last one names none. -/
def completeChain (svc : EKS) (clusterName : String) : Option String → List ListAddonsOutput → Prop
  | _, [] => False
  | tok, [last] =>
    svc.ListAddons (pageRequest clusterName tok) = .ok last ∧ nextPageToken last = none
  | tok, page :: next :: rest =>
    svc.ListAddons (pageRequest clusterName tok) = .ok page ∧ nextPageToken page ≠ none ∧
      completeChain svc clusterName (nextPageToken page) (next :: rest)

/-- The mocked listing operation of `svc` answers the cluster `clusterName` with the
pages `pages`, from the token `tok` on, every one naming a next page, and fails with `e`
on the request that follows them. -/
def failingChain (svc : EKS) (clusterName : String) (e : GoError) :
    Option String → List ListAddonsOutput → Prop
  | tok, [] => svc.ListAddons (pageRequest clusterName tok) = .error e
  | tok, page :: rest =>
    svc.ListAddons (pageRequest clusterName tok) = .ok page ∧ nextPageToken page ≠ none ∧
      failingChain svc clusterName e (nextPageToken page) rest

/-- The pager is about to send a request: it has not started and no token is set, or it
has started and holds a token. -/
def pagerReady (started : Bool) (tok : Option String) : Prop :=
  (started = false ∧ tok = none) ∨ (started = true ∧ tok ≠ none)

/-! ## Scenarios -/

/-- A listing mock with two pages for every cluster: two entries and the token `t1`,
then one entry and no token. -/
def mockListAddons (req : ListAddonsInput) : Except GoError ListAddonsOutput :=
  match req.NextToken with
  | none => .ok { Addons := [some "vpc-cni", some "coredns"], NextToken := some "t1" }
  | some t =>
    if t = "t1" then .ok { Addons := [some "kube-proxy"], NextToken := none }
    else .error (.aws "InvalidParameterException" "unknown token")

/-- A detail mock that echoes the key of the request. -/
def mockDescribeAddon (req : DescribeAddonInput) : Except GoError DescribeAddonOutput :=
  .ok { Addon := some { AddonName := req.AddonName, ClusterName := req.ClusterName,
                         Status := some "ACTIVE" } }

/-- The record with which `mockDescribeAddon` answers the request for `(c1, a1)`. -/
def mockRecord : Addon :=
  { AddonName := some "a1", ClusterName := some "c1", Status := some "ACTIVE" }

/-- A client for `eu-west-1` built from the two mocks. -/
def mockSvc : EKS :=
  { endpoint := "eu-west-1", ListAddons := mockListAddons, DescribeAddon := mockDescribeAddon }

/-- An environment whose client constructor knows the region `eu-west-1` only. -/
def mockEnv : Env :=
  { matrixKeyRegion := "region",
    EksService := fun _ _ r =>
      if r = "eu-west-1" then .ok mockSvc else .error (.other "region must be passed") }

/-- A context whose matrix item selects `eu-west-1`. -/
def ctxWest : Context := { matrixItem := [("region", .str "eu-west-1")] }

/-- The two pages served by `mockListAddons`. -/
def mockPages : List ListAddonsOutput :=
  [{ Addons := [some "vpc-cni", some "coredns"], NextToken := some "t1" },
   { Addons := [some "kube-proxy"], NextToken := none }]

/-- A listing mock whose second page cannot be fetched. -/
def throttledListAddons (req : ListAddonsInput) : Except GoError ListAddonsOutput :=
  match req.NextToken with
  | none => .ok { Addons := [some "vpc-cni", some "coredns"], NextToken := some "t1" }
  | some _ => .error (.aws "ThrottlingException" "rate exceeded")

/-- A client whose listing operation is `throttledListAddons`. -/
def throttledSvc : EKS :=
  { endpoint := "eu-west-1", ListAddons := throttledListAddons, DescribeAddon := mockDescribeAddon }

/-- An environment that hands out `throttledSvc`. -/
def throttledEnv : Env :=
  { matrixKeyRegion := "region", EksService := fun _ _ _ => .ok throttledSvc }

/-- The one page that `throttledListAddons` serves before it fails. -/
def throttledPages : List ListAddonsOutput :=
  [{ Addons := [some "vpc-cni", some "coredns"], NextToken := some "t1" }]

/-- Key-column predicates `cluster_name = c1` and `addon_name = a1`. -/
def directQuals : QueryData :=
  { KeyColumnQuals := [("addon_name", .stringValue "a1"), ("cluster_name", .stringValue "c1")] }

/-- A detail mock that answers every request with the record of another add-on. -/
def strayDescribeAddon (_req : DescribeAddonInput) : Except GoError DescribeAddonOutput :=
  .ok { Addon := some { AddonName := some "coredns", ClusterName := some "c2" } }

/-- An environment whose client uses `strayDescribeAddon`. -/
def strayEnv : Env :=
  { matrixKeyRegion := "region",
    EksService := fun _ _ _ =>
      .ok { endpoint := "eu-west-1", ListAddons := mockListAddons,
            DescribeAddon := strayDescribeAddon } }

/-- A detail mock that reports every add-on as absent. -/
def goneDescribeAddon (_req : DescribeAddonInput) : Except GoError DescribeAddonOutput :=
  .error (.aws "ResourceNotFoundException" "No addon found")

/-- A client whose detail operation is `goneDescribeAddon`. -/
def goneSvc : EKS :=
  { endpoint := "eu-west-1", ListAddons := mockListAddons, DescribeAddon := goneDescribeAddon }

/-- An environment that hands out `goneSvc`. -/
def goneEnv : Env :=
  { matrixKeyRegion := "region", EksService := fun _ _ _ => .ok goneSvc }

/-- A detail mock that is throttled. -/
def throttledDescribeAddon (_req : DescribeAddonInput) : Except GoError DescribeAddonOutput :=
  .error (.aws "ThrottlingException" "rate exceeded")

/-- A client whose detail operation is `throttledDescribeAddon`. -/
def busySvc : EKS :=
  { endpoint := "eu-west-1", ListAddons := mockListAddons,
    DescribeAddon := throttledDescribeAddon }

/-- An environment that hands out `busySvc`. -/
def busyEnv : Env :=
  { matrixKeyRegion := "region", EksService := fun _ _ _ => .ok busySvc }

/-- A listing mock with one entry on the first page and an empty last page. -/
def sparseListAddons (req : ListAddonsInput) : Except GoError ListAddonsOutput :=
  match req.NextToken with
  | none => .ok { Addons := [some "vpc-cni"], NextToken := some "t1" }
  | some _ => .ok { Addons := [], NextToken := none }

/-- An environment whose client lists with `sparseListAddons`. -/
def sparseEnv : Env :=
  { matrixKeyRegion := "region",
    EksService := fun _ _ _ =>
      .ok { endpoint := "eu-west-1", ListAddons := sparseListAddons,
            DescribeAddon := mockDescribeAddon } }

/-- An environment that agrees with `mockEnv` on `eu-west-1` and hands out a client with
other answers for every other region. -/
def farEnv : Env :=
  { matrixKeyRegion := "region",
    EksService := fun _ _ r =>
      if r = "eu-west-1" then .ok mockSvc
      else .ok { endpoint := r, ListAddons := sparseListAddons,
                 DescribeAddon := strayDescribeAddon } }

/-- A listing mock whose only page holds one entry, a nil `*string`. -/
def holeListAddons (_req : ListAddonsInput) : Except GoError ListAddonsOutput :=
  .ok { Addons := [none], NextToken := none }

/-- An environment whose client lists with `holeListAddons`. -/
def holeEnv : Env :=
  { matrixKeyRegion := "region",
    EksService := fun _ _ _ =>
      .ok { endpoint := "eu-west-1", ListAddons := holeListAddons,
            DescribeAddon := mockDescribeAddon } }

/-! ## The page callback -/

theorem foldl_stream_fields (d : QueryData) (f : Option String → Item) (l : List (Option String))
    (w : World) :
    (l.foldl (fun w addon => StreamListItem d (f addon) w) w).stream = w.stream ++ l.map f ∧
    (l.foldl (fun w addon => StreamListItem d (f addon) w) w).calls = w.calls ∧
    (l.foldl (fun w addon => StreamListItem d (f addon) w) w).clients = w.clients ∧
    (l.foldl (fun w addon => StreamListItem d (f addon) w) w).logs = w.logs := by
  induction l generalizing w with
  | nil => simp
  | cons a l ih =>
    simp only [List.foldl_cons, List.map_cons]
    obtain ⟨h1, h2, h3, h4⟩ := ih (StreamListItem d (f a) w)
    refine ⟨?_, ?_, ?_, ?_⟩
    · rw [h1]; simp [StreamListItem]
    · rw [h2]; simp [StreamListItem]
    · rw [h3]; simp [StreamListItem]
    · rw [h4]; simp [StreamListItem]

theorem listEksAddonsPage_continue (d : QueryData) (c : String) (page : ListAddonsOutput)
    (b : Bool) (w : World) : (listEksAddonsPage d c page b w).1 = true := rfl

theorem listEksAddonsPage_stream (d : QueryData) (c : String) (page : ListAddonsOutput)
    (b : Bool) (w : World) :
    (listEksAddonsPage d c page b w).2.stream = w.stream ++ pageItems c page :=
  (foldl_stream_fields d (listItem c) page.Addons w).1

theorem listEksAddonsPage_calls (d : QueryData) (c : String) (page : ListAddonsOutput)
    (b : Bool) (w : World) : (listEksAddonsPage d c page b w).2.calls = w.calls :=
  (foldl_stream_fields d (listItem c) page.Addons w).2.1

theorem listEksAddonsPage_clients (d : QueryData) (c : String) (page : ListAddonsOutput)
    (b : Bool) (w : World) : (listEksAddonsPage d c page b w).2.clients = w.clients :=
  (foldl_stream_fields d (listItem c) page.Addons w).2.2.1

/-! ## The pager -/

theorem pagesLoop_done (svc : EKS) (input : ListAddonsInput)
    (fn : ListAddonsOutput → Bool → World → Bool × World) (fuel : Nat) (w : World) :
    pagesLoop svc input fn fuel true none w = (.returned none, w) := by
  cases fuel <;> simp [pagesLoop]

theorem pagerReady_request (c : String) {started : Bool} {tok : Option String}
    (h : pagerReady started tok) :
    (started && tok.isNone) = false ∧
    (if started then { pageRequest c none with NextToken := tok } else pageRequest c none)
      = pageRequest c tok := by
  rcases h with ⟨h1, h2⟩ | ⟨h1, h2⟩
  · subst h1; subst h2; simp
  · subst h1
    cases tok with
    | none => exact absurd rfl h2
    | some t => simp [pageRequest]

theorem pagesLoop_page (svc : EKS) (d : QueryData) (c : String) (fuel : Nat) {started : Bool}
    {tok : Option String} (w : World) {page : ListAddonsOutput} (hready : pagerReady started tok)
    (hpage : svc.ListAddons (pageRequest c tok) = .ok page) :
    pagesLoop svc (pageRequest c none) (listEksAddonsPage d c) (fuel + 1) started tok w =
      pagesLoop svc (pageRequest c none) (listEksAddonsPage d c) fuel true (nextPageToken page)
        (listEksAddonsPage d c page (nextPageToken page).isNone
          { w with calls := w.calls ++ [RemoteCall.listAddons svc.endpoint (pageRequest c tok)] }).2 := by
  obtain ⟨h1, h2⟩ := pagerReady_request c hready
  rw [pagesLoop]
  simp only [h1, h2, hpage, listEksAddonsPage_continue]
  simp

theorem pagesLoop_error (svc : EKS) (d : QueryData) (c : String) (fuel : Nat) {started : Bool}
    {tok : Option String} (w : World) {e : GoError} (hready : pagerReady started tok)
    (hpage : svc.ListAddons (pageRequest c tok) = .error e) :
    pagesLoop svc (pageRequest c none) (listEksAddonsPage d c) (fuel + 1) started tok w =
      (.returned (some e),
        { w with calls := w.calls ++ [RemoteCall.listAddons svc.endpoint (pageRequest c tok)] }) := by
  obtain ⟨h1, h2⟩ := pagerReady_request c hready
  rw [pagesLoop]
  simp only [h1, h2, hpage]
  simp

theorem pagerReady_next {page : ListAddonsOutput} (h : nextPageToken page ≠ none) :
    pagerReady true (nextPageToken page) := Or.inr ⟨rfl, h⟩

theorem pagesLoop_completeChain (svc : EKS) (d : QueryData) (c : String) :
    ∀ (pages : List ListAddonsOutput) (fuel : Nat) (started : Bool) (tok : Option String)
      (w : World), pagerReady started tok → completeChain svc c tok pages → pages.length ≤ fuel →
      (pagesLoop svc (pageRequest c none) (listEksAddonsPage d c) fuel started tok w).1
          = .returned none ∧
      (pagesLoop svc (pageRequest c none) (listEksAddonsPage d c) fuel started tok w).2.stream
          = w.stream ++ pages.flatMap (pageItems c) ∧
      (pagesLoop svc (pageRequest c none) (listEksAddonsPage d c) fuel started tok w).2.calls
          = w.calls ++ (chainRequests c tok pages).map (RemoteCall.listAddons svc.endpoint) ∧
      (pagesLoop svc (pageRequest c none) (listEksAddonsPage d c) fuel started tok w).2.clients
          = w.clients
  | [], _, _, _, _, _, hchain, _ => absurd hchain (by simp [completeChain])
  | [last], 0, _, _, _, _, _, hfuel => absurd hfuel (by simp)
  | [last], fuel + 1, started, tok, w, hready, hchain, _ => by
    obtain ⟨hpage, hend⟩ := hchain
    rw [pagesLoop_page svc d c fuel w hready hpage, hend, pagesLoop_done]
    simp [listEksAddonsPage_stream, listEksAddonsPage_calls, listEksAddonsPage_clients,
      chainRequests]
  | page :: next :: rest, 0, _, _, _, _, _, hfuel => absurd hfuel (by simp)
  | page :: next :: rest, fuel + 1, started, tok, w, hready, hchain, hfuel => by
    obtain ⟨hpage, hnext, hrest⟩ := hchain
    rw [pagesLoop_page svc d c fuel w hready hpage]
    obtain ⟨h1, h2, h3, h4⟩ := pagesLoop_completeChain svc d c (next :: rest) fuel true
      (nextPageToken page) _ (pagerReady_next hnext) hrest (by simpa using hfuel)
    rw [h1, h2, h3, h4]
    simp [listEksAddonsPage_stream, listEksAddonsPage_calls, listEksAddonsPage_clients,
      chainRequests]

theorem pagesLoop_failingChain (svc : EKS) (d : QueryData) (c : String) (e : GoError) :
    ∀ (pages : List ListAddonsOutput) (fuel : Nat) (started : Bool) (tok : Option String)
      (w : World), pagerReady started tok → failingChain svc c e tok pages →
      pages.length + 1 ≤ fuel →
      (pagesLoop svc (pageRequest c none) (listEksAddonsPage d c) fuel started tok w).1
          = .returned (some e) ∧
      (pagesLoop svc (pageRequest c none) (listEksAddonsPage d c) fuel started tok w).2.stream
          = w.stream ++ pages.flatMap (pageItems c) ∧
      (pagesLoop svc (pageRequest c none) (listEksAddonsPage d c) fuel started tok w).2.calls
          = w.calls ++ (chainRequests c tok pages ++ [pageRequest c (chainEndToken tok pages)]).map
              (RemoteCall.listAddons svc.endpoint) ∧
      (pagesLoop svc (pageRequest c none) (listEksAddonsPage d c) fuel started tok w).2.clients
          = w.clients
  | _, 0, _, _, _, _, _, hfuel => absurd hfuel (by simp)
  | [], fuel + 1, started, tok, w, hready, hchain, _ => by
    rw [pagesLoop_error svc d c fuel w hready hchain]
    simp [chainRequests, chainEndToken]
  | page :: rest, fuel + 1, started, tok, w, hready, hchain, hfuel => by
    obtain ⟨hpage, hnext, hrest⟩ := hchain
    rw [pagesLoop_page svc d c fuel w hready hpage]
    obtain ⟨h1, h2, h3, h4⟩ := pagesLoop_failingChain svc d c e rest fuel true
      (nextPageToken page) _ (pagerReady_next hnext) hrest (by simpa using hfuel)
    rw [h1, h2, h3, h4]
    simp [listEksAddonsPage_stream, listEksAddonsPage_calls, listEksAddonsPage_clients,
      chainRequests, chainEndToken]

theorem chainRequests_length (c : String) :
    ∀ (pages : List ListAddonsOutput) (tok : Option String),
      (chainRequests c tok pages).length = pages.length
  | [], _ => rfl
  | page :: rest, _ => by simp [chainRequests, chainRequests_length c rest]

/-! ## `listEksAddons` -/

/-- What `listEksAddons` returns for what the pager returns: `return nil, err`. -/
theorem listEksAddons_run (env : Env) (ctx : Context) (d : QueryData) (w : World)
    (p region : String) (svc : EKS) (fuel : Nat)
    (hregion : regionString (GetMatrixItem ctx env.matrixKeyRegion) = .ok region)
    (hsvc : env.EksService ctx d region = .ok svc) :
    listEksAddons env fuel ctx d { Item := .cluster (some { Name := some p }) } w =
      match pagesLoop svc (pageRequest p none) (listEksAddonsPage d p) fuel false none
          { Trace "listEksAddons" ["AWS_REGION", region] w with
            clients := w.clients ++ [region] } with
      | (.returned err, w3) => (.returned (Item.nil, err), w3)
      | (.panicked msg, w3) => (.panicked msg, w3)
      | (.outOfFuel, w3) => (.outOfFuel, w3) := by
  simp only [listEksAddons, hregion, callEksService, hsvc, ListAddonsPages]
  rfl

theorem listEksAddons_returned (env : Env) (ctx : Context) (d : QueryData) (w : World)
    (p region : String) (svc : EKS) (fuel : Nat) (err : Option GoError)
    (hregion : regionString (GetMatrixItem ctx env.matrixKeyRegion) = .ok region)
    (hsvc : env.EksService ctx d region = .ok svc)
    (hpager : (pagesLoop svc (pageRequest p none) (listEksAddonsPage d p) fuel false none
          { Trace "listEksAddons" ["AWS_REGION", region] w with
            clients := w.clients ++ [region] }).1 = .returned err) :
    listEksAddons env fuel ctx d { Item := .cluster (some { Name := some p }) } w =
      (.returned (Item.nil, err),
        (pagesLoop svc (pageRequest p none) (listEksAddonsPage d p) fuel false none
          { Trace "listEksAddons" ["AWS_REGION", region] w with
            clients := w.clients ++ [region] }).2) := by
  rw [listEksAddons_run env ctx d w p region svc fuel hregion hsvc]
  generalize pagesLoop svc (pageRequest p none) (listEksAddonsPage d p) fuel false none
          { Trace "listEksAddons" ["AWS_REGION", region] w with
            clients := w.clients ++ [region] } = r at hpager ⊢
  obtain ⟨r1, r2⟩ := r
  simp only at hpager
  subst hpager
  rfl

/-- C1: pagination completeness of `listEksAddons`. For every cluster name `p` and every
mocked listing operation that serves `N` pages (each but the last naming the next one),
with fuel for `N` requests the function returns `(nil, nil)`, has streamed exactly the
entries of the pages, in the order of the entries and of the pages, and has issued exactly
the `N` page requests of the chain. -/
theorem listEksAddons_pagination_complete (env : Env) (ctx : Context) (d : QueryData)
    (w : World) (p region : String) (svc : EKS) (pages : List ListAddonsOutput) (fuel : Nat)
    (hregion : regionString (GetMatrixItem ctx env.matrixKeyRegion) = .ok region)
    (hsvc : env.EksService ctx d region = .ok svc)
    (hchain : completeChain svc p none pages)
    (hfuel : pages.length ≤ fuel) :
    (listEksAddons env fuel ctx d { Item := .cluster (some { Name := some p }) } w).1
        = .returned (Item.nil, none) ∧
    (listEksAddons env fuel ctx d { Item := .cluster (some { Name := some p }) } w).2.stream
        = w.stream ++ pages.flatMap (pageItems p) ∧
    (listEksAddons env fuel ctx d { Item := .cluster (some { Name := some p }) } w).2.calls
        = w.calls ++ (chainRequests p none pages).map (RemoteCall.listAddons svc.endpoint) ∧
    (chainRequests p none pages).length = pages.length := by
  obtain ⟨h1, h2, h3, _⟩ := pagesLoop_completeChain svc d p pages fuel false none
    { Trace "listEksAddons" ["AWS_REGION", region] w with clients := w.clients ++ [region] }
    (Or.inl ⟨rfl, rfl⟩) hchain hfuel
  rw [listEksAddons_returned env ctx d w p region svc fuel none hregion hsvc h1]
  exact ⟨rfl, by rw [h2]; rfl, by rw [h3]; rfl, chainRequests_length p pages none⟩

/-- Witness of C1: the two pages of `mockListAddons` for the cluster `c1`. -/
theorem listEksAddons_pagination_complete_witness :
    (listEksAddons mockEnv 2 ctxWest {} { Item := .cluster (some { Name := some "c1" }) } {}).1
        = .returned (Item.nil, none) ∧
    (listEksAddons mockEnv 2 ctxWest {} { Item := .cluster (some { Name := some "c1" }) } {}).2.stream
        = ({} : World).stream ++ mockPages.flatMap (pageItems "c1") ∧
    (listEksAddons mockEnv 2 ctxWest {} { Item := .cluster (some { Name := some "c1" }) } {}).2.calls
        = ({} : World).calls ++
          (chainRequests "c1" none mockPages).map (RemoteCall.listAddons mockSvc.endpoint) ∧
    (chainRequests "c1" none mockPages).length = mockPages.length :=
  listEksAddons_pagination_complete mockEnv ctxWest {} {} "c1" "eu-west-1" mockSvc mockPages 2
    rfl rfl ⟨rfl, by decide, rfl, rfl⟩ (by decide)

/-- C6: failure of a page fetch in `listEksAddons`. When the listing operation serves
the pages `1..k-1` and the request for page `k` fails with `e`, the function returns
`(nil, e)`, the failed request is the last one issued, and the stream holds exactly the
items of the pages `1..k-1` after what it held before. -/
theorem listEksAddons_page_failure (env : Env) (ctx : Context) (d : QueryData)
    (w : World) (p region : String) (svc : EKS) (pages : List ListAddonsOutput) (e : GoError)
    (fuel : Nat)
    (hregion : regionString (GetMatrixItem ctx env.matrixKeyRegion) = .ok region)
    (hsvc : env.EksService ctx d region = .ok svc)
    (hchain : failingChain svc p e none pages)
    (hfuel : pages.length + 1 ≤ fuel) :
    (listEksAddons env fuel ctx d { Item := .cluster (some { Name := some p }) } w).1
        = .returned (Item.nil, some e) ∧
    (listEksAddons env fuel ctx d { Item := .cluster (some { Name := some p }) } w).2.calls
        = w.calls ++ (chainRequests p none pages ++ [pageRequest p (chainEndToken none pages)]).map
            (RemoteCall.listAddons svc.endpoint) ∧
    (listEksAddons env fuel ctx d { Item := .cluster (some { Name := some p }) } w).2.stream
        = w.stream ++ pages.flatMap (pageItems p) := by
  obtain ⟨h1, h2, h3, _⟩ := pagesLoop_failingChain svc d p e pages fuel false none
    { Trace "listEksAddons" ["AWS_REGION", region] w with clients := w.clients ++ [region] }
    (Or.inl ⟨rfl, rfl⟩) hchain hfuel
  rw [listEksAddons_returned env ctx d w p region svc fuel (some e) hregion hsvc h1]
  exact ⟨rfl, by rw [h3]; rfl, by rw [h2]; rfl⟩

/-- Witness of C6: the second page of the cluster `c1` is throttled. -/
theorem listEksAddons_page_failure_witness :
    (listEksAddons throttledEnv 2 ctxWest {} { Item := .cluster (some { Name := some "c1" }) } {}).1
        = .returned (Item.nil, some (.aws "ThrottlingException" "rate exceeded")) ∧
    (listEksAddons throttledEnv 2 ctxWest {} { Item := .cluster (some { Name := some "c1" }) } {}).2.calls
        = ({} : World).calls ++
          (chainRequests "c1" none throttledPages
            ++ [pageRequest "c1" (chainEndToken none throttledPages)]).map
            (RemoteCall.listAddons throttledSvc.endpoint) ∧
    (listEksAddons throttledEnv 2 ctxWest {} { Item := .cluster (some { Name := some "c1" }) } {}).2.stream
        = ({} : World).stream ++ throttledPages.flatMap (pageItems "c1") :=
  listEksAddons_page_failure throttledEnv ctxWest {} {} "c1" "eu-west-1" throttledSvc
    throttledPages (.aws "ThrottlingException" "rate exceeded") 2
    rfl rfl ⟨rfl, by decide, rfl⟩ (by decide)

/-! ## `getEksAddon` -/

/-- With the region read, the key extracted and the client obtained, `getEksAddon` sends
the one request for the key and returns what the remote operation answers. -/
theorem getEksAddon_run (env : Env) (ctx : Context) (d : QueryData) (h : HydrateData)
    (w : World) (region c a : String) (svc : EKS)
    (hregion : regionString (GetMatrixItem ctx env.matrixKeyRegion) = .ok region)
    (hkey : lookupKey d h = .ok (c, a))
    (hsvc : env.EksService ctx d region = .ok svc) :
    getEksAddon env ctx d h w =
      ((match svc.DescribeAddon { AddonName := some a, ClusterName := some c } with
        | .error err => .returned (Item.nil, some err)
        | .ok op => .returned (Item.addon op.Addon, none)),
       { Trace "getEksAddon" [] w with
         clients := w.clients ++ [region]
         calls := w.calls ++
           [RemoteCall.describeAddon svc.endpoint { AddonName := some a, ClusterName := some c }] }) := by
  simp only [getEksAddon, hregion, hkey, callEksService, hsvc, callDescribeAddon]
  cases svc.DescribeAddon { AddonName := some a, ClusterName := some c } <;> rfl

theorem lookupKey_direct (d : QueryData) (c1 a1 : String)
    (hc : d.KeyColumnQuals.lookup "cluster_name" = some (.stringValue c1))
    (ha : d.KeyColumnQuals.lookup "addon_name" = some (.stringValue a1)) :
    lookupKey d { Item := Item.nil } = .ok (c1, a1) := by
  simp [lookupKey, hc, ha, GetStringValue]

theorem lookupKey_listItem (d : QueryData) (p a : String) :
    lookupKey d { Item := listItem p (some a) } = .ok (p, a) := rfl

/-- C3: an error of the detail call is returned as it is. For every error `e` that
`DescribeAddon` returns for the key, whatever its code, `getEksAddon` returns no record
together with exactly `e`; when `e` is not in the ignorable set of the table, the get
path ends with `e` as the fault of the evaluation and delivers no record. -/
theorem getEksAddon_propagates_error (env : Env) (ctx : Context) (d : QueryData)
    (h : HydrateData) (w : World) (region c a : String) (svc : EKS) (e : GoError)
    (hregion : regionString (GetMatrixItem ctx env.matrixKeyRegion) = .ok region)
    (hkey : lookupKey d h = .ok (c, a))
    (hsvc : env.EksService ctx d region = .ok svc)
    (hfail : svc.DescribeAddon { AddonName := some a, ClusterName := some c } = .error e) :
    (getEksAddon env ctx d h w).1 = .returned (Item.nil, some e) ∧
    (tableAwsEksAddonGet.ShouldIgnoreError e = false →
      (getPath tableAwsEksAddonGet env ctx d h w).1
        = .returned { records := [], fault := some e }) := by
  have hrun : tableAwsEksAddonGet.Hydrate env ctx d h w = getEksAddon env ctx d h w := rfl
  refine ⟨by rw [getEksAddon_run env ctx d h w region c a svc hregion hkey hsvc, hfail], ?_⟩
  intro hkeep
  simp only [getPath]
  rw [hrun, getEksAddon_run env ctx d h w region c a svc hregion hkey hsvc, hfail]
  simp [hkeep]

/-- Witness of C3: a throttled detail call for the key `(c1, a1)`. -/
theorem getEksAddon_propagates_error_witness :
    (getEksAddon busyEnv ctxWest directQuals {} {}).1
      = .returned (Item.nil, some (.aws "ThrottlingException" "rate exceeded")) ∧
    (getPath tableAwsEksAddonGet busyEnv ctxWest directQuals {} {}).1
      = .returned { records := [], fault := some (.aws "ThrottlingException" "rate exceeded") } :=
  ⟨(getEksAddon_propagates_error busyEnv ctxWest directQuals {} {} "eu-west-1" "c1" "a1" busySvc
      (.aws "ThrottlingException" "rate exceeded") rfl rfl rfl rfl).1,
   (getEksAddon_propagates_error busyEnv ctxWest directQuals {} {} "eu-west-1" "c1" "a1" busySvc
      (.aws "ThrottlingException" "rate exceeded") rfl rfl rfl rfl).2 rfl⟩

/-- C4: the direct-get path. Invoked without an item and with the key-column
predicates `cluster_name = c1` and `addon_name = a1`, `getEksAddon` requests the client
of the region of the invocation and issues through it exactly one remote call, the
`DescribeAddon` request for `(c1, a1)`; it issues no listing call and streams nothing. -/
theorem getEksAddon_direct_get (env : Env) (ctx : Context) (d : QueryData) (w : World)
    (region c1 a1 : String) (svc : EKS)
    (hregion : regionString (GetMatrixItem ctx env.matrixKeyRegion) = .ok region)
    (hc : d.KeyColumnQuals.lookup "cluster_name" = some (.stringValue c1))
    (ha : d.KeyColumnQuals.lookup "addon_name" = some (.stringValue a1))
    (hsvc : env.EksService ctx d region = .ok svc) :
    (getEksAddon env ctx d { Item := Item.nil } w).2.calls
      = w.calls ++
        [RemoteCall.describeAddon svc.endpoint { AddonName := some a1, ClusterName := some c1 }] ∧
    (getEksAddon env ctx d { Item := Item.nil } w).2.clients = w.clients ++ [region] ∧
    (getEksAddon env ctx d { Item := Item.nil } w).2.stream = w.stream := by
  rw [getEksAddon_run env ctx d _ w region c1 a1 svc hregion (lookupKey_direct d c1 a1 hc ha) hsvc]
  exact ⟨rfl, rfl, rfl⟩

/-- Witness of C4: the predicates `cluster_name = c1`, `addon_name = a1` in `eu-west-1`. -/
theorem getEksAddon_direct_get_witness :
    (getEksAddon mockEnv ctxWest directQuals { Item := Item.nil } {}).2.calls
      = ({} : World).calls ++
        [RemoteCall.describeAddon mockSvc.endpoint
          { AddonName := some "a1", ClusterName := some "c1" }] ∧
    (getEksAddon mockEnv ctxWest directQuals { Item := Item.nil } {}).2.clients
      = ({} : World).clients ++ ["eu-west-1"] ∧
    (getEksAddon mockEnv ctxWest directQuals { Item := Item.nil } {}).2.stream
      = ({} : World).stream :=
  getEksAddon_direct_get mockEnv ctxWest directQuals {} "eu-west-1" "c1" "a1" mockSvc
    rfl rfl rfl rfl

/-! ## Effects of a run, whatever the remote answers -/

theorem pagesLoop_effects (svc : EKS) (input : ListAddonsInput) (d : QueryData) (c : String) :
    ∀ (fuel : Nat) (started : Bool) (tok : Option String) (w : World),
      ∃ (items : List Item) (calls : List RemoteCall),
        (pagesLoop svc input (listEksAddonsPage d c) fuel started tok w).2.stream
            = w.stream ++ items ∧
        (∀ it ∈ items, ∃ e, it = listItem c e) ∧
        (pagesLoop svc input (listEksAddonsPage d c) fuel started tok w).2.calls
            = w.calls ++ calls ∧
        (∀ x ∈ calls, callEndpoint x = svc.endpoint) ∧
        (pagesLoop svc input (listEksAddonsPage d c) fuel started tok w).2.clients = w.clients
  | 0, started, tok, w => by
    refine ⟨[], [], ?_, by simp, ?_, by simp, ?_⟩ <;>
      (rw [pagesLoop]; split <;> simp)
  | fuel + 1, started, tok, w => by
    rw [pagesLoop]
    split
    · exact ⟨[], [], by simp, by simp, by simp, by simp, rfl⟩
    · simp only
      split
      · exact ⟨[], [RemoteCall.listAddons svc.endpoint
          (if started then { input with NextToken := tok } else input)],
          by simp, by simp, rfl, by simp [callEndpoint], rfl⟩
      · rename_i page _
        simp only [listEksAddonsPage_continue, if_true]
        obtain ⟨items, calls, h1, h2, h3, h4, h5⟩ :=
          pagesLoop_effects svc input d c fuel true (nextPageToken page)
            (listEksAddonsPage d c page (nextPageToken page).isNone
              { w with calls := w.calls ++ [RemoteCall.listAddons svc.endpoint
                  (if started then { input with NextToken := tok } else input)] }).2
        refine ⟨pageItems c page ++ items,
          RemoteCall.listAddons svc.endpoint
            (if started then { input with NextToken := tok } else input) :: calls, ?_, ?_, ?_, ?_, ?_⟩
        · rw [h1, listEksAddonsPage_stream]; simp
        · intro it hit
          rcases List.mem_append.1 hit with hit | hit
          · obtain ⟨e, _, he⟩ := List.mem_map.1 hit
            exact ⟨e, he.symm⟩
          · exact h2 it hit
        · rw [h3, listEksAddonsPage_calls]; simp
        · intro x hx
          rcases List.mem_cons.1 hx with hx | hx
          · subst hx; rfl
          · exact h4 x hx
        · rw [h5, listEksAddonsPage_clients]

theorem listEksAddons_effects (env : Env) (fuel : Nat) (ctx : Context) (d : QueryData)
    (h : HydrateData) (w : World) :
    ∃ (items : List Item) (calls : List RemoteCall),
      (listEksAddons env fuel ctx d h w).2.stream = w.stream ++ items ∧
      (∀ it ∈ items, ∃ p e, h.Item = Item.cluster (some { Name := some p }) ∧ it = listItem p e) ∧
      (listEksAddons env fuel ctx d h w).2.calls = w.calls ++ calls ∧
      (∀ x ∈ calls, ∃ region svc,
        regionString (GetMatrixItem ctx env.matrixKeyRegion) = .ok region ∧
        env.EksService ctx d region = .ok svc ∧ callEndpoint x = svc.endpoint) ∧
      ((listEksAddons env fuel ctx d h w).2.clients = w.clients ∨
        ∃ region, regionString (GetMatrixItem ctx env.matrixKeyRegion) = .ok region ∧
          (listEksAddons env fuel ctx d h w).2.clients = w.clients ++ [region]) := by
  obtain ⟨item⟩ := h
  cases hregion : regionString (GetMatrixItem ctx env.matrixKeyRegion) with
  | error msg =>
    exact ⟨[], [], by simp [listEksAddons, hregion], by simp, by simp [listEksAddons, hregion],
      by simp, Or.inl (by simp [listEksAddons, hregion])⟩
  | ok region =>
    cases item with
    | nil =>
      exact ⟨[], [], by simp [listEksAddons, hregion, Trace], by simp,
        by simp [listEksAddons, hregion, Trace], by simp,
        Or.inl (by simp [listEksAddons, hregion, Trace])⟩
    | addon a =>
      exact ⟨[], [], by simp [listEksAddons, hregion, Trace], by simp,
        by simp [listEksAddons, hregion, Trace], by simp,
        Or.inl (by simp [listEksAddons, hregion, Trace])⟩
    | other t =>
      exact ⟨[], [], by simp [listEksAddons, hregion, Trace], by simp,
        by simp [listEksAddons, hregion, Trace], by simp,
        Or.inl (by simp [listEksAddons, hregion, Trace])⟩
    | cluster oc =>
      cases oc with
      | none =>
        exact ⟨[], [], by simp [listEksAddons, hregion, Trace], by simp,
          by simp [listEksAddons, hregion, Trace], by simp,
          Or.inl (by simp [listEksAddons, hregion, Trace])⟩
      | some cl =>
        obtain ⟨name⟩ := cl
        cases name with
        | none =>
          exact ⟨[], [], by simp [listEksAddons, hregion, Trace], by simp,
            by simp [listEksAddons, hregion, Trace], by simp,
            Or.inl (by simp [listEksAddons, hregion, Trace])⟩
        | some p =>
          cases hsvc : env.EksService ctx d region with
          | error err =>
            exact ⟨[], [], by simp [listEksAddons, hregion, Trace, callEksService, hsvc],
              by simp, by simp [listEksAddons, hregion, Trace, callEksService, hsvc], by simp,
              Or.inr ⟨region, rfl, by simp [listEksAddons, hregion, Trace, callEksService, hsvc]⟩⟩
          | ok svc =>
            obtain ⟨items, calls, h1, h2, h3, h4, h5⟩ :=
              pagesLoop_effects svc (pageRequest p none) d p fuel false none
                { Trace "listEksAddons" ["AWS_REGION", region] w with
                  clients := w.clients ++ [region] }
            have hrun := listEksAddons_run env ctx d w p region svc fuel hregion hsvc
            have hworld : (listEksAddons env fuel ctx d
                { Item := .cluster (some { Name := some p }) } w).2 =
                (pagesLoop svc (pageRequest p none) (listEksAddonsPage d p) fuel false none
                  { Trace "listEksAddons" ["AWS_REGION", region] w with
                    clients := w.clients ++ [region] }).2 := by
              rw [hrun]
              generalize pagesLoop svc (pageRequest p none) (listEksAddonsPage d p) fuel false none
                { Trace "listEksAddons" ["AWS_REGION", region] w with
                  clients := w.clients ++ [region] } = r
              obtain ⟨r1, r2⟩ := r
              cases r1 <;> rfl
            refine ⟨items, calls, ?_, ?_, ?_, ?_, Or.inr ⟨region, rfl, ?_⟩⟩
            · rw [hworld, h1]; rfl
            · intro it hit
              obtain ⟨e, he⟩ := h2 it hit
              exact ⟨p, e, rfl, he⟩
            · rw [hworld, h3]; rfl
            · intro x hx
              exact ⟨region, svc, rfl, hsvc, h4 x hx⟩
            · rw [hworld, h5]

theorem getEksAddon_effects (env : Env) (ctx : Context) (d : QueryData) (h : HydrateData)
    (w : World) :
    (getEksAddon env ctx d h w).2.stream = w.stream ∧
    ((getEksAddon env ctx d h w).2.calls = w.calls ∨
      ∃ region c a svc,
        regionString (GetMatrixItem ctx env.matrixKeyRegion) = .ok region ∧
        lookupKey d h = .ok (c, a) ∧ env.EksService ctx d region = .ok svc ∧
        (getEksAddon env ctx d h w).2.calls = w.calls ++
          [RemoteCall.describeAddon svc.endpoint { AddonName := some a, ClusterName := some c }]) ∧
    ((getEksAddon env ctx d h w).2.clients = w.clients ∨
      ∃ region, regionString (GetMatrixItem ctx env.matrixKeyRegion) = .ok region ∧
        (getEksAddon env ctx d h w).2.clients = w.clients ++ [region]) := by
  cases hregion : regionString (GetMatrixItem ctx env.matrixKeyRegion) with
  | error msg =>
    exact ⟨by simp [getEksAddon, hregion, Trace], Or.inl (by simp [getEksAddon, hregion, Trace]),
      Or.inl (by simp [getEksAddon, hregion, Trace])⟩
  | ok region =>
    cases hkey : lookupKey d h with
    | error msg =>
      exact ⟨by simp [getEksAddon, hregion, hkey, Trace],
        Or.inl (by simp [getEksAddon, hregion, hkey, Trace]),
        Or.inl (by simp [getEksAddon, hregion, hkey, Trace])⟩
    | ok key =>
      obtain ⟨c, a⟩ := key
      cases hsvc : env.EksService ctx d region with
      | error err =>
        exact ⟨by simp [getEksAddon, hregion, hkey, hsvc, callEksService, Trace],
          Or.inl (by simp [getEksAddon, hregion, hkey, hsvc, callEksService, Trace]),
          Or.inr ⟨region, rfl, by simp [getEksAddon, hregion, hkey, hsvc, callEksService, Trace]⟩⟩
      | ok svc =>
        have hrun := getEksAddon_run env ctx d h w region c a svc hregion hkey hsvc
        exact ⟨by rw [hrun]; rfl, Or.inr ⟨region, c, a, svc, rfl, rfl, hsvc, by rw [hrun]⟩,
          Or.inr ⟨region, rfl, by rw [hrun]⟩⟩

/-- C7 as stated fails: when `EksService` returns an error (here: no region in the
matrix item), `getEksAddon` returns that error and issues no `DescribeAddon` request. -/
theorem getEksAddon_no_request_without_client :
    (getEksAddon mockEnv {} directQuals {} {}).1
      = .returned (Item.nil, some (.other "region must be passed")) ∧
    (getEksAddon mockEnv {} directQuals {} {}).2.calls = [] ∧
    (getEksAddon mockEnv {} directQuals {} {}).2.calls.length ≠ 1 := by
  decide

/-- C7, amended: every invocation of `getEksAddon` issues at most one remote call, never
a second one and never a retry. When the region is read, the key is extracted and
`EksService` returns a client, it issues exactly one `DescribeAddon` request, for the
key, and returns what that one call answers: `(nil, e)` on an error `e`, the record
otherwise. When `EksService` returns an error it issues no request and returns
`(nil, err)` with that error; when the key cannot be extracted, or the matrix region is
no string, it panics and issues no request. -/
theorem getEksAddon_at_most_one_request (env : Env) (ctx : Context) (d : QueryData)
    (h : HydrateData) (w : World) :
    ((getEksAddon env ctx d h w).2.calls = w.calls ∨
      ∃ endpoint params, (getEksAddon env ctx d h w).2.calls
        = w.calls ++ [RemoteCall.describeAddon endpoint params]) ∧
    (∀ region c a svc, regionString (GetMatrixItem ctx env.matrixKeyRegion) = .ok region →
      lookupKey d h = .ok (c, a) → env.EksService ctx d region = .ok svc →
      (getEksAddon env ctx d h w).2.calls = w.calls ++
        [RemoteCall.describeAddon svc.endpoint { AddonName := some a, ClusterName := some c }] ∧
      (∀ e, svc.DescribeAddon { AddonName := some a, ClusterName := some c } = .error e →
        (getEksAddon env ctx d h w).1 = .returned (Item.nil, some e)) ∧
      (∀ op, svc.DescribeAddon { AddonName := some a, ClusterName := some c } = .ok op →
        (getEksAddon env ctx d h w).1 = .returned (Item.addon op.Addon, none))) ∧
    (∀ region err, regionString (GetMatrixItem ctx env.matrixKeyRegion) = .ok region →
      env.EksService ctx d region = .error err → (getEksAddon env ctx d h w).2.calls = w.calls) ∧
    (∀ msg, lookupKey d h = .error msg → (getEksAddon env ctx d h w).2.calls = w.calls) ∧
    (∀ region c a err, regionString (GetMatrixItem ctx env.matrixKeyRegion) = .ok region →
      lookupKey d h = .ok (c, a) → env.EksService ctx d region = .error err →
      (getEksAddon env ctx d h w).1 = .returned (Item.nil, some err) ∧
      (getEksAddon env ctx d h w).2.calls = w.calls) ∧
    (∀ region msg, regionString (GetMatrixItem ctx env.matrixKeyRegion) = .ok region →
      lookupKey d h = .error msg →
      (getEksAddon env ctx d h w).1 = .panicked msg ∧
      (getEksAddon env ctx d h w).2.calls = w.calls) ∧
    (∀ msg, regionString (GetMatrixItem ctx env.matrixKeyRegion) = .error msg →
      (getEksAddon env ctx d h w).1 = .panicked msg ∧
      (getEksAddon env ctx d h w).2.calls = w.calls) := by
  refine ⟨?_, ?_, ?_, ?_, ?_, ?_, ?_⟩
  · rcases (getEksAddon_effects env ctx d h w).2.1 with hc | ⟨_, c, a, svc, _, _, _, hc⟩
    · exact Or.inl hc
    · exact Or.inr ⟨svc.endpoint, _, hc⟩
  · intro region c a svc hregion hkey hsvc
    rw [getEksAddon_run env ctx d h w region c a svc hregion hkey hsvc]
    refine ⟨rfl, ?_, ?_⟩
    · intro e he
      rw [he]
    · intro op hop
      rw [hop]
  · intro region err hregion hsvc
    rcases (getEksAddon_effects env ctx d h w).2.1 with hc | ⟨region2, _, _, svc, hr2, _, hs2, _⟩
    · exact hc
    · rw [hregion] at hr2
      cases hr2
      rw [hsvc] at hs2
      cases hs2
  · intro msg hkey
    rcases (getEksAddon_effects env ctx d h w).2.1 with hc | ⟨_, _, _, _, _, hk2, _, _⟩
    · exact hc
    · rw [hkey] at hk2
      cases hk2
  · intro region c a err hregion hkey hsvc
    simp [getEksAddon, hregion, hkey, callEksService, hsvc, Trace]
  · intro region msg hregion hkey
    simp [getEksAddon, hregion, hkey, Trace]
  · intro msg hregion
    simp [getEksAddon, hregion, Trace]

/-- Witness of C7, amended: one request and the record with a client; one request and
the error of a throttled call; no request and the error of `EksService` without a client;
no request and a panic for an item without names. -/
theorem getEksAddon_at_most_one_request_witness :
    ((getEksAddon mockEnv ctxWest directQuals {} {}).2.calls = ({} : World).calls ++
        [RemoteCall.describeAddon mockSvc.endpoint
          { AddonName := some "a1", ClusterName := some "c1" }] ∧
      (getEksAddon mockEnv ctxWest directQuals {} {}).1
        = .returned (Item.addon (some mockRecord), none)) ∧
    ((getEksAddon busyEnv ctxWest directQuals {} {}).2.calls = ({} : World).calls ++
        [RemoteCall.describeAddon busySvc.endpoint
          { AddonName := some "a1", ClusterName := some "c1" }] ∧
      (getEksAddon busyEnv ctxWest directQuals {} {}).1
        = .returned (Item.nil, some (.aws "ThrottlingException" "rate exceeded"))) ∧
    ((getEksAddon mockEnv {} directQuals {} {}).1
        = .returned (Item.nil, some (.other "region must be passed")) ∧
      (getEksAddon mockEnv {} directQuals {} {}).2.calls = ({} : World).calls) ∧
    ((getEksAddon mockEnv ctxWest directQuals { Item := Item.addon (some {}) } {}).1
        = .panicked "nil pointer dereference" ∧
      (getEksAddon mockEnv ctxWest directQuals { Item := Item.addon (some {}) } {}).2.calls
        = ({} : World).calls) :=
  ⟨⟨((getEksAddon_at_most_one_request mockEnv ctxWest directQuals {} {}).2.1
        "eu-west-1" "c1" "a1" mockSvc rfl rfl rfl).1,
     ((getEksAddon_at_most_one_request mockEnv ctxWest directQuals {} {}).2.1
        "eu-west-1" "c1" "a1" mockSvc rfl rfl rfl).2.2 { Addon := some mockRecord } rfl⟩,
   ⟨((getEksAddon_at_most_one_request busyEnv ctxWest directQuals {} {}).2.1
        "eu-west-1" "c1" "a1" busySvc rfl rfl rfl).1,
     ((getEksAddon_at_most_one_request busyEnv ctxWest directQuals {} {}).2.1
        "eu-west-1" "c1" "a1" busySvc rfl rfl rfl).2.1
        (.aws "ThrottlingException" "rate exceeded") rfl⟩,
   (getEksAddon_at_most_one_request mockEnv {} directQuals {} {}).2.2.2.2.1
      "" "c1" "a1" (.other "region must be passed") rfl rfl rfl,
   (getEksAddon_at_most_one_request mockEnv ctxWest directQuals
      { Item := Item.addon (some {}) } {}).2.2.2.2.2.1
      "eu-west-1" "nil pointer dereference" rfl rfl⟩

/-! ## The delivered record -/

theorem eksAddonColumns_hydrate (describe : String → String) :
    (tableAwsEksAddon describe).Columns.findSome? (fun col => col.Hydrate) = some getEksAddon :=
  rfl

theorem listThenGet_eq (describe : String → String) (env : Env) (ctx : Context)
    (d : QueryData) (item : Item) (w : World) :
    listThenGet (tableAwsEksAddon describe) env ctx d item w =
      match getEksAddon env ctx d { Item := item } w with
      | (.returned (record, none), w1) =>
        (.returned { rows := if record.isNil then []
                             else [assembleRow (eksAddonColumns describe) item record] }, w1)
      | (.returned (_, some err), w1) =>
        if tableAwsEksAddonGet.ShouldIgnoreError err then
          (.returned { rows := [], fault := none }, w1)
        else (.returned { rows := [], fault := some err }, w1)
      | (.panicked msg, w1) => (.panicked msg, w1)
      | (.outOfFuel, w1) => (.outOfFuel, w1) := by
  simp only [listThenGet, eksAddonColumns_hydrate]
  rfl

theorem getEksAddon_nil_entry_not_returned (env : Env) (ctx : Context) (d : QueryData)
    (w : World) (p : String) (res : Item × Option GoError) :
    (getEksAddon env ctx d { Item := listItem p none } w).1 ≠ .returned res := by
  cases hregion : regionString (GetMatrixItem ctx env.matrixKeyRegion) with
  | error msg => simp [getEksAddon, hregion]
  | ok region => simp [getEksAddon, hregion, lookupKey, listItem]

/-- C5: identity of the delivered record on the list-then-get path. The columns
`cluster_name` and `addon_name` of the table have no hydrate function, so in every record
delivered for a streamed item their values are the cluster name and the entry of that
item, whatever the remote detail operation answers; such a record exists only for an
item with a name `a`, and the `DescribeAddon` request sent for it carries that same key
`(p, a)`. When the detail call answers with a record `r`, exactly one record is
delivered: its identity is `(p, a)` and its hydrated columns, such as `status`, are read
from `r`. -/
theorem delivered_record_identity (describe : String → String) (env : Env) (ctx : Context)
    (d : QueryData) (w : World) (p : String) :
    (∀ (entry : Option String) (res : RowResult),
      (listThenGet (tableAwsEksAddon describe) env ctx d (listItem p entry) w).1 = .returned res →
      ∀ row ∈ res.rows,
        row.lookup "cluster_name" = some (Value.string p) ∧
        row.lookup "addon_name" = some (Value.ofString entry) ∧
        ∃ a, entry = some a ∧
          ∀ region svc, regionString (GetMatrixItem ctx env.matrixKeyRegion) = .ok region →
            env.EksService ctx d region = .ok svc →
            (listThenGet (tableAwsEksAddon describe) env ctx d (listItem p entry) w).2.calls
              = w.calls ++ [RemoteCall.describeAddon svc.endpoint
                  { AddonName := some a, ClusterName := some p }]) ∧
    (∀ (a region : String) (svc : EKS) (r : Addon),
      regionString (GetMatrixItem ctx env.matrixKeyRegion) = .ok region →
      env.EksService ctx d region = .ok svc →
      svc.DescribeAddon { AddonName := some a, ClusterName := some p } = .ok { Addon := some r } →
      (listThenGet (tableAwsEksAddon describe) env ctx d (listItem p (some a)) w).1
        = .returned { rows := [assembleRow (eksAddonColumns describe) (listItem p (some a))
            (Item.addon (some r))] } ∧
      (listThenGet (tableAwsEksAddon describe) env ctx d (listItem p (some a)) w).2.calls
        = w.calls ++ [RemoteCall.describeAddon svc.endpoint
            { AddonName := some a, ClusterName := some p }] ∧
      (assembleRow (eksAddonColumns describe) (listItem p (some a))
        (Item.addon (some r))).lookup "cluster_name" = some (Value.string p) ∧
      (assembleRow (eksAddonColumns describe) (listItem p (some a))
        (Item.addon (some r))).lookup "addon_name" = some (Value.string a) ∧
      (assembleRow (eksAddonColumns describe) (listItem p (some a))
        (Item.addon (some r))).lookup "status" = some (Value.ofString r.Status)) := by
  constructor
  · intro entry res hres row hrow
    rw [listThenGet_eq] at hres
    have hshape : ∃ record, row = assembleRow (eksAddonColumns describe) (listItem p entry) record := by
      revert hres
      generalize getEksAddon env ctx d { Item := listItem p entry } w = g
      obtain ⟨o, w1⟩ := g
      intro hres
      cases o with
      | returned v =>
        obtain ⟨record, err⟩ := v
        cases err with
        | none =>
          simp only [Outcome.returned.injEq] at hres
          subst hres
          by_cases hnil : record.isNil = true
          · simp [hnil] at hrow
          · simp only [hnil, Bool.false_eq_true, if_false, List.mem_singleton] at hrow
            exact ⟨record, hrow⟩
        | some e =>
          simp only at hres
          split at hres
          · simp only [Outcome.returned.injEq] at hres
            subst hres
            simp at hrow
          · simp only [Outcome.returned.injEq] at hres
            subst hres
            simp at hrow
      | panicked msg => simp at hres
      | outOfFuel => simp at hres
    obtain ⟨record, hrec⟩ := hshape
    subst hrec
    refine ⟨rfl, rfl, ?_⟩
    cases entry with
    | none =>
      exfalso
      revert hres
      have hno := getEksAddon_nil_entry_not_returned env ctx d w p
      generalize getEksAddon env ctx d { Item := listItem p none } w = g at hno
      obtain ⟨o, w1⟩ := g
      intro hres
      cases o with
      | returned v => exact hno v rfl
      | panicked msg => simp at hres
      | outOfFuel => simp at hres
    | some a =>
      refine ⟨a, rfl, fun region svc hregion hsvc => ?_⟩
      rw [listThenGet_eq, getEksAddon_run env ctx d { Item := listItem p (some a) } w region p a
        svc hregion (lookupKey_listItem d p a) hsvc]
      cases svc.DescribeAddon { AddonName := some a, ClusterName := some p } with
      | error e =>
        simp only
        split <;> rfl
      | ok op => rfl
  · intro a region svc r hregion hsvc hresp
    rw [listThenGet_eq, getEksAddon_run env ctx d { Item := listItem p (some a) } w region p a
      svc hregion (lookupKey_listItem d p a) hsvc, hresp]
    exact ⟨rfl, rfl, rfl, rfl, rfl⟩

/-- Witness of C5: the detail mock answers the request for `(c1, a1)` with the record of
`(c2, coredns)`; the record delivered for the item `(c1, a1)` still carries `(c1, a1)`. -/
theorem delivered_record_identity_witness :
    (listThenGet (tableAwsEksAddon id) strayEnv ctxWest {} (listItem "c1" (some "a1")) {}).1
      = .returned { rows := [assembleRow (eksAddonColumns id) (listItem "c1" (some "a1"))
          (Item.addon (some { AddonName := some "coredns", ClusterName := some "c2" }))] } ∧
    (listThenGet (tableAwsEksAddon id) strayEnv ctxWest {} (listItem "c1" (some "a1")) {}).2.calls
      = ({} : World).calls ++ [RemoteCall.describeAddon "eu-west-1"
          { AddonName := some "a1", ClusterName := some "c1" }] ∧
    (assembleRow (eksAddonColumns id) (listItem "c1" (some "a1"))
      (Item.addon (some { AddonName := some "coredns", ClusterName := some "c2" }))).lookup
        "cluster_name" = some (Value.string "c1") ∧
    (assembleRow (eksAddonColumns id) (listItem "c1" (some "a1"))
      (Item.addon (some { AddonName := some "coredns", ClusterName := some "c2" }))).lookup
        "addon_name" = some (Value.string "a1") ∧
    (assembleRow (eksAddonColumns id) (listItem "c1" (some "a1"))
      (Item.addon (some { AddonName := some "coredns", ClusterName := some "c2" }))).lookup
        "status" = some (Value.ofString none) :=
  (delivered_record_identity id strayEnv ctxWest {} {} "c1").2 "a1" "eu-west-1"
    { endpoint := "eu-west-1", ListAddons := mockListAddons, DescribeAddon := strayDescribeAddon }
    { AddonName := some "coredns", ClusterName := some "c2" } rfl rfl rfl

/-- C2: not-found suppression on the get path. When the `DescribeAddon` call for the
key `(p, c)` fails with an error whose code is `ResourceNotFoundException`,
`InvalidParameterException` or `InvalidParameter`, the get path of the table delivers
zero records for the key and no fault. -/
theorem getPath_suppresses_not_found (env : Env) (ctx : Context) (d : QueryData)
    (h : HydrateData) (w : World) (region p c : String) (svc : EKS) (code msg : String)
    (hregion : regionString (GetMatrixItem ctx env.matrixKeyRegion) = .ok region)
    (hkey : lookupKey d h = .ok (p, c))
    (hsvc : env.EksService ctx d region = .ok svc)
    (hcode : code = "ResourceNotFoundException" ∨ code = "InvalidParameterException" ∨
      code = "InvalidParameter")
    (hfail : svc.DescribeAddon { AddonName := some c, ClusterName := some p }
      = .error (.aws code msg)) :
    (getPath tableAwsEksAddonGet env ctx d h w).1 = .returned { records := [], fault := none } := by
  have hignore : tableAwsEksAddonGet.ShouldIgnoreError (.aws code msg) = true := by
    rcases hcode with hc | hc | hc <;> subst hc <;> rfl
  simp only [getPath]
  have hrun : tableAwsEksAddonGet.Hydrate env ctx d h w = getEksAddon env ctx d h w := rfl
  rw [hrun, getEksAddon_run env ctx d h w region p c svc hregion hkey hsvc, hfail]
  simp only [hignore, if_true]

/-- Witness of C2: the add-on `(c1, a1)` has vanished. -/
theorem getPath_suppresses_not_found_witness :
    (getPath tableAwsEksAddonGet goneEnv ctxWest directQuals {} {}).1
      = .returned { records := [], fault := none } :=
  getPath_suppresses_not_found goneEnv ctxWest directQuals {} {} "eu-west-1" "c1" "a1" goneSvc
    "ResourceNotFoundException" "No addon found" rfl rfl rfl (Or.inl rfl) rfl

/-! ## Cancellation -/

theorem StreamListItem_agree (d d2 : QueryData) (item : Item) {w w2 : World}
    (h : agreeUpToCancel w w2) :
    agreeUpToCancel (StreamListItem d item w) (StreamListItem d2 item w2) := by
  obtain ⟨h1, h2, h3, h4⟩ := h
  exact ⟨h1, h2, by simp [StreamListItem, h3], h4⟩

theorem foldl_stream_agree (d d2 : QueryData) (f : Option String → Item) :
    ∀ (l : List (Option String)) (w w2 : World), agreeUpToCancel w w2 →
      agreeUpToCancel (l.foldl (fun w addon => StreamListItem d (f addon) w) w)
        (l.foldl (fun w addon => StreamListItem d2 (f addon) w) w2)
  | [], _, _, h => h
  | a :: l, w, w2, h => by
    simp only [List.foldl_cons]
    exact foldl_stream_agree d d2 f l _ _ (StreamListItem_agree d d2 (f a) h)

theorem pagesLoop_agree (svc : EKS) (input : ListAddonsInput) (d d2 : QueryData) (c : String) :
    ∀ (fuel : Nat) (started : Bool) (tok : Option String) (w w2 : World),
      agreeUpToCancel w w2 →
      (pagesLoop svc input (listEksAddonsPage d c) fuel started tok w).1
        = (pagesLoop svc input (listEksAddonsPage d2 c) fuel started tok w2).1 ∧
      agreeUpToCancel (pagesLoop svc input (listEksAddonsPage d c) fuel started tok w).2
        (pagesLoop svc input (listEksAddonsPage d2 c) fuel started tok w2).2
  | 0, started, tok, w, w2, h => by
    rw [pagesLoop, pagesLoop]
    split <;> exact ⟨rfl, h⟩
  | fuel + 1, started, tok, w, w2, h => by
    rw [pagesLoop, pagesLoop]
    split
    · exact ⟨rfl, h⟩
    · simp only
      have hcall : agreeUpToCancel
          { w with calls := w.calls ++ [RemoteCall.listAddons svc.endpoint
              (if started then { input with NextToken := tok } else input)] }
          { w2 with calls := w2.calls ++ [RemoteCall.listAddons svc.endpoint
              (if started then { input with NextToken := tok } else input)] } := by
        obtain ⟨h1, h2, h3, h4⟩ := h
        exact ⟨h1, by simp [h2], h3, h4⟩
      split
      · exact ⟨rfl, hcall⟩
      · rename_i page _
        simp only [listEksAddonsPage_continue, if_true]
        exact pagesLoop_agree svc input d d2 c fuel true (nextPageToken page) _ _
          (foldl_stream_agree d d2 (listItem c) page.Addons _ _ hcall)

theorem listEksAddons_agree (env : Env) (fuel : Nat) (ctx : Context) (d d2 : QueryData)
    (h : HydrateData) (w : World)
    (hclient : ∀ region, env.EksService ctx d2 region = env.EksService ctx d region) :
    (listEksAddons env fuel ctx d2 h w).1 = (listEksAddons env fuel ctx d h w).1 ∧
    agreeUpToCancel (listEksAddons env fuel ctx d2 h w).2 (listEksAddons env fuel ctx d h w).2 := by
  obtain ⟨item⟩ := h
  cases hregion : regionString (GetMatrixItem ctx env.matrixKeyRegion) with
  | error msg => simp [listEksAddons, hregion, agreeUpToCancel]
  | ok region =>
    cases item with
    | nil => simp [listEksAddons, hregion, agreeUpToCancel]
    | addon a => simp [listEksAddons, hregion, agreeUpToCancel]
    | other t => simp [listEksAddons, hregion, agreeUpToCancel]
    | cluster oc =>
      cases oc with
      | none => simp [listEksAddons, hregion, agreeUpToCancel]
      | some cl =>
        obtain ⟨name⟩ := cl
        cases name with
        | none => simp [listEksAddons, hregion, agreeUpToCancel]
        | some p =>
          cases hsvc : env.EksService ctx d region with
          | error err =>
            simp [listEksAddons, hregion, callEksService, hclient, hsvc, agreeUpToCancel]
          | ok svc =>
            have hsvc2 : env.EksService ctx d2 region = .ok svc := by rw [hclient, hsvc]
            rw [listEksAddons_run env ctx d w p region svc fuel hregion hsvc,
              listEksAddons_run env ctx d2 w p region svc fuel hregion hsvc2]
            obtain ⟨h1, h2⟩ := pagesLoop_agree svc (pageRequest p none) d2 d p fuel false none
              { Trace "listEksAddons" ["AWS_REGION", region] w with
                clients := w.clients ++ [region] }
              { Trace "listEksAddons" ["AWS_REGION", region] w with
                clients := w.clients ++ [region] } ⟨rfl, rfl, rfl, rfl⟩
            revert h1 h2
            generalize pagesLoop svc (pageRequest p none) (listEksAddonsPage d2 p) fuel false none
              { Trace "listEksAddons" ["AWS_REGION", region] w with
                clients := w.clients ++ [region] } = r2
            generalize pagesLoop svc (pageRequest p none) (listEksAddonsPage d p) fuel false none
              { Trace "listEksAddons" ["AWS_REGION", region] w with
                clients := w.clients ++ [region] } = r
            obtain ⟨o2, x2⟩ := r2
            obtain ⟨o, x⟩ := r
            intro h1 h2
            simp only at h1 h2
            subst h1
            cases o2 <;> exact ⟨rfl, h2⟩

/-- C8 as stated fails: with a row limit of one, the evaluation is cancelled when the
only entry of the first page has been streamed, one remote call having been issued, and
`listEksAddons` still requests the second page. -/
theorem listEksAddons_requests_after_cancel :
    (listEksAddons sparseEnv 2 ctxWest { rowLimit := some 1 }
        { Item := .cluster (some { Name := some "c1" }) } {}).2.cancelledAt = some 1 ∧
    (listEksAddons sparseEnv 2 ctxWest { rowLimit := some 1 }
        { Item := .cluster (some { Name := some "c1" }) } {}).2.calls
      = [RemoteCall.listAddons "eu-west-1" (pageRequest "c1" none),
         RemoteCall.listAddons "eu-west-1" (pageRequest "c1" (some "t1"))] ∧
    requestAfterCancel (listEksAddons sparseEnv 2 ctxWest { rowLimit := some 1 }
        { Item := .cluster (some { Name := some "c1" }) } {}).2 = true := by
  decide

/-- C8, amended: `listEksAddons` does not observe the cancellation. For every row limit,
the value it returns, the page requests it issues and the items it streams are those of
the run without a limit, so that pages are still requested after the evaluation was
cancelled; items already streamed are not retracted: the stream on entry is an initial
segment of the stream on return. -/
theorem listEksAddons_ignores_cancellation (env : Env) (fuel : Nat) (ctx : Context)
    (d : QueryData) (h : HydrateData) (w : World) (limit : Option Nat)
    (hclient : ∀ region,
      env.EksService ctx { d with rowLimit := limit } region = env.EksService ctx d region) :
    (listEksAddons env fuel ctx { d with rowLimit := limit } h w).1
      = (listEksAddons env fuel ctx d h w).1 ∧
    (listEksAddons env fuel ctx { d with rowLimit := limit } h w).2.calls
      = (listEksAddons env fuel ctx d h w).2.calls ∧
    (listEksAddons env fuel ctx { d with rowLimit := limit } h w).2.stream
      = (listEksAddons env fuel ctx d h w).2.stream ∧
    w.stream <+: (listEksAddons env fuel ctx { d with rowLimit := limit } h w).2.stream := by
  obtain ⟨h1, _, h3, h4, _⟩ := listEksAddons_agree env fuel ctx d { d with rowLimit := limit } h w hclient
  obtain ⟨items, _, hs, _⟩ := listEksAddons_effects env fuel ctx { d with rowLimit := limit } h w
  exact ⟨h1, h3, h4, ⟨items, hs.symm⟩⟩

/-- Witness of C8, amended: the two pages of the cluster `c1` with a row limit of one. -/
theorem listEksAddons_ignores_cancellation_witness :
    (listEksAddons mockEnv 2 ctxWest { ({} : QueryData) with rowLimit := some 1 }
        { Item := .cluster (some { Name := some "c1" }) } {}).1
      = (listEksAddons mockEnv 2 ctxWest {} { Item := .cluster (some { Name := some "c1" }) } {}).1 ∧
    (listEksAddons mockEnv 2 ctxWest { ({} : QueryData) with rowLimit := some 1 }
        { Item := .cluster (some { Name := some "c1" }) } {}).2.calls
      = (listEksAddons mockEnv 2 ctxWest {} { Item := .cluster (some { Name := some "c1" }) } {}).2.calls ∧
    (listEksAddons mockEnv 2 ctxWest { ({} : QueryData) with rowLimit := some 1 }
        { Item := .cluster (some { Name := some "c1" }) } {}).2.stream
      = (listEksAddons mockEnv 2 ctxWest {} { Item := .cluster (some { Name := some "c1" }) } {}).2.stream ∧
    ({} : World).stream <+: (listEksAddons mockEnv 2 ctxWest { ({} : QueryData) with rowLimit := some 1 }
        { Item := .cluster (some { Name := some "c1" }) } {}).2.stream :=
  listEksAddons_ignores_cancellation mockEnv 2 ctxWest {}
    { Item := .cluster (some { Name := some "c1" }) } {} (some 1) (fun _ => rfl)

/-! ## From the streamed identity to the lookup key -/

/-- C9 as stated fails: an entry of a page is a `*string` and may be nil. For the
cluster `c1` and a page whose one entry is nil, `listEksAddons` streams an item with
`ClusterName = c1` and no `AddonName`, and `getEksAddon`, invoked with that item, panics
while it extracts the key and builds no request. -/
theorem getEksAddon_panics_on_nil_entry :
    (listEksAddons holeEnv 1 ctxWest {} { Item := .cluster (some { Name := some "c1" }) } {}).1
      = .returned (Item.nil, none) ∧
    (listEksAddons holeEnv 1 ctxWest {} { Item := .cluster (some { Name := some "c1" }) } {}).2.stream
      = [Item.addon (some { AddonName := none, ClusterName := some "c1" })] ∧
    (getEksAddon holeEnv ctxWest directQuals
        { Item := Item.addon (some { AddonName := none, ClusterName := some "c1" }) } {}).1
      = .panicked "nil pointer dereference" ∧
    (getEksAddon holeEnv ctxWest directQuals
        { Item := Item.addon (some { AddonName := none, ClusterName := some "c1" }) } {}).2.calls
      = [] := by
  decide

/-- C9, amended: a streamed identity with a name determines exactly one lookup key. For
the cluster name `p`, the page callback of `listEksAddons` streams for every entry of a
page one `eks.Addon` that holds the entry as `AddonName`, `p` as `ClusterName` and
nothing else, and every item a run of `listEksAddons` adds to the stream has that shape.
Invoked with the item of an entry that is a non-nil pointer to the name `a`,
`getEksAddon` extracts the key `(p, a)` whatever the key-column predicates are, returns
without a panic, and, given a client, sends the `DescribeAddon` request with
`ClusterName = p` and `AddonName = a`. -/
theorem streamed_identity_determines_key (env : Env) (fuel : Nat) (ctx : Context)
    (d : QueryData) (w : World) (p : String) :
    (∀ (page : ListAddonsOutput) (b : Bool) (w0 : World),
      (listEksAddonsPage d p page b w0).2.stream = w0.stream ++ page.Addons.map (fun entry =>
        Item.addon (some
          { AddonArn := none, AddonName := entry, AddonVersion := none, ClusterName := some p,
            CreatedAt := none, Health := none, ModifiedAt := none,
            ServiceAccountRoleArn := none, Status := none, Tags := [] }))) ∧
    (∃ items, (listEksAddons env fuel ctx d { Item := .cluster (some { Name := some p }) } w).2.stream
        = w.stream ++ items ∧
      ∀ it ∈ items, ∃ entry,
        it = Item.addon (some { AddonName := entry, ClusterName := some p })) ∧
    (∀ (a : String) (d2 : QueryData),
      lookupKey d2 { Item := Item.addon (some { AddonName := some a, ClusterName := some p }) }
        = .ok (p, a)) ∧
    (∀ (a : String) (d2 : QueryData) (w2 : World) (region : String),
      regionString (GetMatrixItem ctx env.matrixKeyRegion) = .ok region →
      (∃ res, (getEksAddon env ctx d2
          { Item := Item.addon (some { AddonName := some a, ClusterName := some p }) } w2).1
        = .returned res) ∧
      ∀ svc, env.EksService ctx d2 region = .ok svc →
        (getEksAddon env ctx d2
          { Item := Item.addon (some { AddonName := some a, ClusterName := some p }) } w2).2.calls
        = w2.calls ++
          [RemoteCall.describeAddon svc.endpoint { AddonName := some a, ClusterName := some p }]) := by
  refine ⟨fun page b w0 => listEksAddonsPage_stream d p page b w0, ?_, fun a d2 => rfl, ?_⟩
  · obtain ⟨items, _, hs, hitems, _⟩ :=
      listEksAddons_effects env fuel ctx d { Item := .cluster (some { Name := some p }) } w
    refine ⟨items, hs, fun it hit => ?_⟩
    obtain ⟨q, e, hq, he⟩ := hitems it hit
    simp only [Item.cluster.injEq, Option.some.injEq, Cluster.mk.injEq] at hq
    subst hq
    exact ⟨e, he⟩
  · intro a d2 w2 region hregion
    constructor
    · cases hsvc : env.EksService ctx d2 region with
      | error err =>
        exact ⟨(Item.nil, some err), by
          simp [getEksAddon, hregion, lookupKey, callEksService, hsvc]⟩
      | ok svc =>
        rw [getEksAddon_run env ctx d2
          { Item := Item.addon (some { AddonName := some a, ClusterName := some p }) }
          w2 region p a svc hregion rfl hsvc]
        cases svc.DescribeAddon { AddonName := some a, ClusterName := some p } with
        | error err => exact ⟨_, rfl⟩
        | ok op => exact ⟨_, rfl⟩
    · intro svc hsvc
      rw [getEksAddon_run env ctx d2
          { Item := Item.addon (some { AddonName := some a, ClusterName := some p }) }
          w2 region p a svc hregion rfl hsvc]

/-- Witness of C9, amended: the entry `vpc-cni` of the cluster `c1`, looked up although the
key-column predicates name `(c1, a1)`. -/
theorem streamed_identity_determines_key_witness :
    (∃ res, (getEksAddon mockEnv ctxWest directQuals
        { Item := Item.addon (some { AddonName := some "vpc-cni", ClusterName := some "c1" }) }
        {}).1 = .returned res) ∧
    (getEksAddon mockEnv ctxWest directQuals
        { Item := Item.addon (some { AddonName := some "vpc-cni", ClusterName := some "c1" }) }
        {}).2.calls
      = ({} : World).calls ++ [RemoteCall.describeAddon mockSvc.endpoint
          { AddonName := some "vpc-cni", ClusterName := some "c1" }] :=
  ⟨((streamed_identity_determines_key mockEnv 2 ctxWest {} {} "c1").2.2.2
      "vpc-cni" directQuals {} "eu-west-1" rfl).1,
   ((streamed_identity_determines_key mockEnv 2 ctxWest {} {} "c1").2.2.2
      "vpc-cni" directQuals {} "eu-west-1" rfl).2 mockSvc rfl⟩

/-! ## Regions -/

theorem listEksAddons_congr_env (env env2 : Env) (fuel : Nat) (ctx : Context) (d : QueryData)
    (h : HydrateData) (w : World)
    (hkey : env2.matrixKeyRegion = env.matrixKeyRegion)
    (hsame : ∀ region, regionString (GetMatrixItem ctx env.matrixKeyRegion) = .ok region →
      env2.EksService ctx d region = env.EksService ctx d region) :
    listEksAddons env2 fuel ctx d h w = listEksAddons env fuel ctx d h w := by
  unfold listEksAddons
  rw [hkey]
  cases hregion : regionString (GetMatrixItem ctx env.matrixKeyRegion) with
  | error msg => rfl
  | ok region => simp only [callEksService, hsame region hregion]

theorem getEksAddon_congr_env (env env2 : Env) (ctx : Context) (d : QueryData)
    (h : HydrateData) (w : World)
    (hkey : env2.matrixKeyRegion = env.matrixKeyRegion)
    (hsame : ∀ region, regionString (GetMatrixItem ctx env.matrixKeyRegion) = .ok region →
      env2.EksService ctx d region = env.EksService ctx d region) :
    getEksAddon env2 ctx d h w = getEksAddon env ctx d h w := by
  unfold getEksAddon
  rw [hkey]
  cases hregion : regionString (GetMatrixItem ctx env.matrixKeyRegion) with
  | error msg => rfl
  | ok region => simp only [callEksService, hsame region hregion]

theorem pagesLoop_first_call (svc : EKS) (input : ListAddonsInput) (d : QueryData)
    (c : String) (fuel : Nat) (w : World) :
    ∃ rest, (pagesLoop svc input (listEksAddonsPage d c) (fuel + 1) false none w).2.calls
        = w.calls ++ RemoteCall.listAddons svc.endpoint input :: rest ∧
      ∀ x ∈ rest, callEndpoint x = svc.endpoint := by
  rw [pagesLoop]
  simp only [Bool.false_and, Bool.false_eq_true, if_false]
  split
  · exact ⟨[], by simp, by simp⟩
  · rename_i page _
    simp only [listEksAddonsPage_continue, if_true]
    obtain ⟨_, calls, _, _, h3, h4, _⟩ :=
      pagesLoop_effects svc input d c fuel true (nextPageToken page)
        (listEksAddonsPage d c page (nextPageToken page).isNone
          { w with calls := w.calls ++ [RemoteCall.listAddons svc.endpoint input] }).2
    refine ⟨calls, ?_, h4⟩
    rw [h3, listEksAddonsPage_calls]
    simp

theorem listEksAddons_world (env : Env) (ctx : Context) (d : QueryData) (w : World)
    (p region : String) (svc : EKS) (fuel : Nat)
    (hregion : regionString (GetMatrixItem ctx env.matrixKeyRegion) = .ok region)
    (hsvc : env.EksService ctx d region = .ok svc) :
    (listEksAddons env fuel ctx d { Item := .cluster (some { Name := some p }) } w).2 =
      (pagesLoop svc (pageRequest p none) (listEksAddonsPage d p) fuel false none
        { Trace "listEksAddons" ["AWS_REGION", region] w with
          clients := w.clients ++ [region] }).2 := by
  rw [listEksAddons_run env ctx d w p region svc fuel hregion hsvc]
  generalize pagesLoop svc (pageRequest p none) (listEksAddonsPage d p) fuel false none
    { Trace "listEksAddons" ["AWS_REGION", region] w with
      clients := w.clients ++ [region] } = r
  obtain ⟨r1, r2⟩ := r
  cases r1 <;> rfl

theorem listEksAddons_client (env : Env) (fuel : Nat) (ctx : Context) (d : QueryData)
    (w : World) (p region : String)
    (hregion : regionString (GetMatrixItem ctx env.matrixKeyRegion) = .ok region) :
    (listEksAddons env fuel ctx d { Item := .cluster (some { Name := some p }) } w).2.clients
      = w.clients ++ [region] := by
  cases hsvc : env.EksService ctx d region with
  | error err => simp [listEksAddons, hregion, Trace, callEksService, hsvc]
  | ok svc =>
    rw [listEksAddons_world env ctx d w p region svc fuel hregion hsvc]
    obtain ⟨_, _, _, _, _, _, h5⟩ :=
      pagesLoop_effects svc (pageRequest p none) d p fuel false none
        { Trace "listEksAddons" ["AWS_REGION", region] w with clients := w.clients ++ [region] }
    rw [h5]

theorem getEksAddon_client (env : Env) (ctx : Context) (d : QueryData) (h : HydrateData)
    (w : World) (region c a : String)
    (hregion : regionString (GetMatrixItem ctx env.matrixKeyRegion) = .ok region)
    (hkey : lookupKey d h = .ok (c, a)) :
    (getEksAddon env ctx d h w).2.clients = w.clients ++ [region] := by
  cases hsvc : env.EksService ctx d region with
  | error err => simp [getEksAddon, hregion, hkey, Trace, callEksService, hsvc]
  | ok svc => rw [getEksAddon_run env ctx d h w region c a svc hregion hkey hsvc]

/-- C10: no cross-region leakage. An invocation of `listEksAddons` for a cluster, or of
`getEksAddon` for a key, requests the client exactly once and for exactly the region of
its matrix item (the empty string when the matrix item holds no region); no invocation
ever requests a client for another region. Every remote call of the invocation goes
through the client returned for that region: the first page request and all later ones of
`listEksAddons`, the one `DescribeAddon` request of `getEksAddon`; without that client no
call is issued. Hence the outcome, the record and the effects of an invocation are the
same in any two environments that agree on the client of that region, whatever the
clients of the other regions answer. -/
theorem no_cross_region_leakage (env env2 : Env) (fuel : Nat) (ctx : Context) (d : QueryData)
    (hl hg : HydrateData) (w : World)
    (hkey : env2.matrixKeyRegion = env.matrixKeyRegion)
    (hsame : ∀ region, regionString (GetMatrixItem ctx env.matrixKeyRegion) = .ok region →
      env2.EksService ctx d region = env.EksService ctx d region) :
    ((listEksAddons env fuel ctx d hl w).2.clients = w.clients ∨
      ∃ region, regionString (GetMatrixItem ctx env.matrixKeyRegion) = .ok region ∧
        (listEksAddons env fuel ctx d hl w).2.clients = w.clients ++ [region]) ∧
    ((getEksAddon env ctx d hg w).2.clients = w.clients ∨
      ∃ region, regionString (GetMatrixItem ctx env.matrixKeyRegion) = .ok region ∧
        (getEksAddon env ctx d hg w).2.clients = w.clients ++ [region]) ∧
    (GetMatrixItem ctx env.matrixKeyRegion = none →
      regionString (GetMatrixItem ctx env.matrixKeyRegion) = .ok "") ∧
    (∃ calls, (listEksAddons env fuel ctx d hl w).2.calls = w.calls ++ calls ∧
      ∀ x ∈ calls, ∃ region svc,
        regionString (GetMatrixItem ctx env.matrixKeyRegion) = .ok region ∧
        env.EksService ctx d region = .ok svc ∧ callEndpoint x = svc.endpoint) ∧
    (∃ calls, (getEksAddon env ctx d hg w).2.calls = w.calls ++ calls ∧
      ∀ x ∈ calls, ∃ region svc,
        regionString (GetMatrixItem ctx env.matrixKeyRegion) = .ok region ∧
        env.EksService ctx d region = .ok svc ∧ callEndpoint x = svc.endpoint) ∧
    listEksAddons env2 fuel ctx d hl w = listEksAddons env fuel ctx d hl w ∧
    getEksAddon env2 ctx d hg w = getEksAddon env ctx d hg w ∧
    (∀ region p, regionString (GetMatrixItem ctx env.matrixKeyRegion) = .ok region →
      hl = { Item := .cluster (some { Name := some p }) } →
      (listEksAddons env fuel ctx d hl w).2.clients = w.clients ++ [region]) ∧
    (∀ region c a, regionString (GetMatrixItem ctx env.matrixKeyRegion) = .ok region →
      lookupKey d hg = .ok (c, a) →
      (getEksAddon env ctx d hg w).2.clients = w.clients ++ [region]) ∧
    (∀ region p svc k, regionString (GetMatrixItem ctx env.matrixKeyRegion) = .ok region →
      hl = { Item := .cluster (some { Name := some p }) } →
      env.EksService ctx d region = .ok svc → fuel = k + 1 →
      ∃ rest, (listEksAddons env fuel ctx d hl w).2.calls
          = w.calls ++ RemoteCall.listAddons svc.endpoint (pageRequest p none) :: rest ∧
        ∀ x ∈ rest, callEndpoint x = svc.endpoint) ∧
    (∀ region c a svc, regionString (GetMatrixItem ctx env.matrixKeyRegion) = .ok region →
      lookupKey d hg = .ok (c, a) → env.EksService ctx d region = .ok svc →
      (getEksAddon env ctx d hg w).2.calls = w.calls ++
        [RemoteCall.describeAddon svc.endpoint { AddonName := some a, ClusterName := some c }]) ∧
    (∀ region err, regionString (GetMatrixItem ctx env.matrixKeyRegion) = .ok region →
      env.EksService ctx d region = .error err →
      (listEksAddons env fuel ctx d hl w).2.calls = w.calls ∧
      (getEksAddon env ctx d hg w).2.calls = w.calls) := by
  obtain ⟨_, calls, _, _, hcalls, hthrough, hclients⟩ := listEksAddons_effects env fuel ctx d hl w
  obtain ⟨_, hgcalls, hgclients⟩ := getEksAddon_effects env ctx d hg w
  refine ⟨hclients, hgclients, fun hnone => by rw [hnone]; rfl, ⟨calls, hcalls, hthrough⟩, ?_,
    listEksAddons_congr_env env env2 fuel ctx d hl w hkey hsame,
    getEksAddon_congr_env env env2 ctx d hg w hkey hsame, ?_, ?_, ?_, ?_, ?_⟩
  · rcases hgcalls with hc | ⟨region, c, a, svc, hregion, _, hsvc, hc⟩
    · exact ⟨[], by simp [hc], by simp⟩
    · refine ⟨_, hc, fun x hx => ?_⟩
      rw [List.mem_singleton] at hx
      subst hx
      exact ⟨region, svc, hregion, hsvc, rfl⟩
  · intro region p hregion hitem
    subst hitem
    exact listEksAddons_client env fuel ctx d w p region hregion
  · intro region c a hregion hk
    exact getEksAddon_client env ctx d hg w region c a hregion hk
  · intro region p svc k hregion hitem hsvc hfuel
    subst hitem
    subst hfuel
    rw [listEksAddons_world env ctx d w p region svc (k + 1) hregion hsvc]
    exact pagesLoop_first_call svc (pageRequest p none) d p k _
  · intro region c a svc hregion hk hsvc
    rw [getEksAddon_run env ctx d hg w region c a svc hregion hk hsvc]
  · intro region err hregion herr
    constructor
    · have hnil : calls = [] := by
        apply List.eq_nil_iff_forall_not_mem.2
        intro x hx
        obtain ⟨region2, svc, hr2, hs2, _⟩ := hthrough x hx
        rw [hregion] at hr2
        cases hr2
        rw [herr] at hs2
        cases hs2
      rw [hcalls, hnil]
      simp
    · rcases hgcalls with hc | ⟨region2, _, _, svc, hr2, _, hs2, _⟩
      · exact hc
      · rw [hregion] at hr2
        cases hr2
        rw [herr] at hs2
        cases hs2

/-- Witness of C10: `mockEnv` and `farEnv` agree on the client of `eu-west-1` and differ
on the clients of all other regions. For the matrix region `eu-west-1`, listing the
cluster `c1` and hydrating the item `(c1, a1)` request the client of `eu-west-1` only,
send their calls through it, and give the same result, the record of `(c1, a1)`, in both
environments. -/
theorem no_cross_region_leakage_witness :
    (listEksAddons farEnv 2 ctxWest {} { Item := .cluster (some { Name := some "c1" }) } {}
        = listEksAddons mockEnv 2 ctxWest {} { Item := .cluster (some { Name := some "c1" }) } {} ∧
      getEksAddon farEnv ctxWest {} { Item := listItem "c1" (some "a1") } {}
        = getEksAddon mockEnv ctxWest {} { Item := listItem "c1" (some "a1") } {}) ∧
    (listEksAddons mockEnv 2 ctxWest {} { Item := .cluster (some { Name := some "c1" }) } {}).2.clients
      = ({} : World).clients ++ ["eu-west-1"] ∧
    (getEksAddon mockEnv ctxWest {} { Item := listItem "c1" (some "a1") } {}).2.clients
      = ({} : World).clients ++ ["eu-west-1"] ∧
    (getEksAddon mockEnv ctxWest {} { Item := listItem "c1" (some "a1") } {}).2.calls
      = ({} : World).calls ++ [RemoteCall.describeAddon mockSvc.endpoint
          { AddonName := some "a1", ClusterName := some "c1" }] ∧
    (getEksAddon farEnv ctxWest {} { Item := listItem "c1" (some "a1") } {}).1
      = .returned (Item.addon (some mockRecord), none) ∧
    (listEksAddons farEnv 2 ctxWest {} { Item := .cluster (some { Name := some "c1" }) } {}).2.stream
      = mockPages.flatMap (pageItems "c1") :=
  (fun (T : _) =>
    ⟨⟨T.2.2.2.2.2.1, T.2.2.2.2.2.2.1⟩,
     T.2.2.2.2.2.2.2.1 "eu-west-1" "c1" rfl rfl,
     T.2.2.2.2.2.2.2.2.1 "eu-west-1" "c1" "a1" rfl rfl,
     T.2.2.2.2.2.2.2.2.2.2.1 "eu-west-1" "c1" "a1" mockSvc rfl rfl rfl,
     by decide, by decide⟩)
  (no_cross_region_leakage mockEnv farEnv 2 ctxWest {}
    { Item := .cluster (some { Name := some "c1" }) } { Item := listItem "c1" (some "a1") } {} rfl
    (fun region hregion => by
      have hwest : region = "eu-west-1" := by
        have h2 : (Except.ok "eu-west-1" : Except String String) = .ok region := hregion
        exact (Except.ok.inj h2).symm
      subst hwest
      rfl))

end EksAddon
